import Mathlib

/-!
# Hospital billing core: admission charge accumulator and bill composer

Shallow embedding of the billing reconciliation core of `app.py`:
the admission-charge accumulator `_collect_admission_billing_state`,
the save/generate bill composer in `index_billing` (POST branch), and
the invoice editor `edit_bill` (delete_charge / update_bill actions).

Modelling conventions:
* Decimal amounts and quantities are rationals (`ℚ`); the source uses
  Python floats but the spec pins tests to exact 2-decimal amounts.
* Stored JSON charge lists are modelled already parsed: an
  `AdmissionCharge` carries `parsed_charges` (the result of
  `json.loads(charges_json)` with `[]` fallback, exactly as
  `_collect_admission_billing_state` attaches it), and a `Billing`
  carries `charges_json : Option (List LineItem)` where `none` stands
  for an empty or unparseable `charges_json` cell (the two behave
  identically at every use site: the accumulator falls back to `[]`,
  the draft-merge step skips the bill's charges, discount and tax).
* Python `set`s are modelled as duplicate-free insertion lists; only
  membership is ever observed.
* Datetimes are integer epoch seconds.  `datetime.strptime` failures
  are modelled by the `DateField.malformed` constructor and empty
  cells by `DateField.missing`, matching the `try`/`except` paths of
  the nursing-day computation.
* Form fields arrive already read: `qty` maps a charge field name to
  the parsed `int` of `qty_<field>` (missing, empty and unparseable
  values all behave exactly like `0`: the field is skipped).
-/

namespace HospitalBilling

/-- One priced charge line, the JSON wire shape
`{charge_code, charge_name, quantity, unit_price, total}`. -/
structure LineItem where
  charge_code : String
  charge_name : String
  quantity : ℚ
  unit_price : ℚ
  total : ℚ
  deriving DecidableEq

/-- A saved-but-not-finalized charge selection (`AdmissionCharge` dataclass);
`parsed_charges` models `json.loads(charges_json)` with `[]` fallback. -/
structure AdmissionCharge where
  charge_entry_id : ℕ
  admission_id : String
  patient_id : String
  patient_name : String
  billing_type : String
  parsed_charges : List LineItem
  subtotal : ℚ
  discount : ℚ
  tax : ℚ
  total_amount : ℚ
  status : String
  created_at : String
  deriving DecidableEq

/-- A draft or final invoice (`Billing` dataclass). -/
structure Billing where
  bill_id : ℕ
  bill_number : String
  patient_id : String
  patient_name : String
  admission_id : String
  billing_date : String
  billing_type : String
  charges_json : Option (List LineItem)
  subtotal : ℚ
  discount : ℚ
  tax : ℚ
  total_amount : ℚ
  payment_status : String
  payment_mode : String
  payment_reference : String
  notes : String
  bill_status : String
  deriving DecidableEq

/-- A datetime cell: empty, unparseable, or parsed to epoch seconds. -/
inductive DateField where
  | missing
  | malformed
  | parsed (seconds : ℤ)
  deriving DecidableEq

/-- The two admission fields the billing core reads. -/
structure Admission where
  admission_id : ℤ
  admission_date_time : DateField
  discharge_date_time : DateField
  deriving DecidableEq

/-- The mutable record store: the admission-charge sheet and the billing sheet. -/
structure Store where
  charge_entries : List AdmissionCharge
  bills : List Billing
  deriving DecidableEq

/-- Read-only request environment: the admissions sheet, the charge-master
lookup (`charge_master_dict.get(field, "0")` followed by `float`; `none`
models a `float` parse failure, which skips the charge), the current time
(`datetime.now()`) and its date string (`strftime("%Y-%m-%d")`). -/
structure Env where
  admissions : List Admission
  charge_master_dict : String → Option ℚ
  now : ℤ
  today : String

/-- The parsed POST form of the `/billing` route.  `qty f` is the parsed
`int` of field `qty_<f>` (missing/unparseable behave as `0`); `discount`
and `tax` are the parsed floats of those fields (missing behaves as `0`). -/
structure BillingForm where
  action : String
  patient_id : String
  patient_name : String
  admission_id : String
  billing_type : String
  qty : String → ℤ
  discount : ℚ
  tax : ℚ

/-- Outcome of a `/billing` POST: a redirect with an error message and no
write, or the persisted record. -/
inductive BillingOutcome where
  | error (msg : String)
  | saved (entry : AdmissionCharge)
  | generated (bill : Billing)
  deriving DecidableEq

/-- Registration & administrative one-time charges (source sets this
identically at both use sites). -/
def registration_charges : List String :=
  ["registration_fee", "file_opening_charges", "card_opd_slip_charges",
   "admission_processing_fee", "emergency_registration_fee"]

/-- Room / bed per-stay charges. -/
def room_bed_charges_set : List String :=
  ["general_ward_bed", "semi_private_room", "private_room", "deluxe_room",
   "suite_room", "icu", "iccu", "nicu_picu", "ventilator_bed", "isolation_room"]

/-- `CHARGE_FIELD_ORDER`: every charge field of `CHARGE_FIELD_SECTIONS`,
in order. -/
def CHARGE_FIELD_ORDER : List String :=
  ["registration_fee", "file_opening_charges", "card_opd_slip_charges",
   "admission_processing_fee", "emergency_registration_fee",
   "general_ward_bed", "semi_private_room", "private_room", "deluxe_room",
   "suite_room", "icu", "iccu", "nicu_picu", "ventilator_bed", "isolation_room",
   "nursing_care_charge", "special_nursing_charge", "attendant_charges",
   "opd_consultation_fee", "opd_followup_fee", "ipd_daily_visit_charge",
   "icu_visit_charge", "night_visit_charge", "surgeon_visit_charge",
   "dressing", "nebulization", "catheterization", "injection_charges",
   "iv_fluids_administration", "enema", "blood_transfusion", "plaster_pop",
   "wound_suturing", "physiotherapy_session", "dialysis_session",
   "ot_charges", "minor_ot_charges", "anesthesia_charges",
   "anesthetist_visit_charge", "surgeon_fee", "assistant_surgeon_fee",
   "recovery_room_charges", "tablets_charge", "injections_charge",
   "iv_fluids_charge", "consumables_charge", "surgical_consumables_charge",
   "oxygen_charges", "ventilator_charges", "defibrillator_usage",
   "cpap_bipap_use", "suction_machine", "food_charges", "linen_charges",
   "biomedical_waste_charges", "wheelchair_stretcher_charges",
   "ambulance_charges", "mortuary_services", "normal_delivery_package",
   "cesarean_section_package", "cataract_surgery_package",
   "knee_replacement_package", "icu_package", "covid_treatment_package",
   "dialysis_package"]

/-- Split a character list at underscores (`str.split`-style, keeping
empty words). -/
def splitOnUnderscore : List Char → List (List Char)
  | [] => [[]]
  | c :: cs =>
    match splitOnUnderscore cs with
    | [] => [[]]
    | w :: ws => if c = '_' then [] :: w :: ws else (c :: w) :: ws

/-- Uppercase the first character of a word. -/
def capitalizeWord : List Char → List Char
  | [] => []
  | c :: cs => c.toUpper :: cs

/-- Join words with single spaces. -/
def joinWithSpace : List (List Char) → List Char
  | [] => []
  | [w] => w
  | w :: ws => w ++ ' ' :: joinWithSpace ws

/-- Python's `field_name.replace("_", " ").title()` for the lowercase
snake_case charge field names: capitalize each underscore-separated word
and join with spaces. -/
def pyTitle (s : String) : String :=
  String.mk (joinWithSpace ((splitOnUnderscore s.data).map capitalizeWord))

/-- `set.add`, on the insertion-list model of a Python set. -/
def setAdd (l : List String) (c : String) : List String :=
  if l.contains c then l else l ++ [c]

/-- The three usage trackers of `_collect_admission_billing_state`. -/
structure Tracking where
  used_registration_charges : List String
  used_room_bed_charges : List String
  total_nursing_care_days : ℚ
  deriving DecidableEq

/-- One step of the inner `_update_tracking` loop. -/
def update_tracking_step (t : Tracking) (charge : LineItem) : Tracking :=
  let t1 :=
    if registration_charges.contains charge.charge_code ∧ charge.quantity > 0 then
      { t with used_registration_charges :=
          setAdd t.used_registration_charges charge.charge_code }
    else t
  let t2 :=
    if room_bed_charges_set.contains charge.charge_code ∧ charge.quantity > 0 then
      { t1 with used_room_bed_charges :=
          setAdd t1.used_room_bed_charges charge.charge_code }
    else t1
  if charge.charge_code = "nursing_care_charge" ∧ charge.quantity > 0 then
    { t2 with total_nursing_care_days := t2.total_nursing_care_days + charge.quantity }
  else t2

/-- `_update_tracking(charges_list)`. -/
def update_tracking (t : Tracking) (charges_list : List LineItem) : Tracking :=
  charges_list.foldl update_tracking_step t

/-- Truthy-and-equal admission match:
`entry.admission_id and str(entry.admission_id) == str(admission_id)`. -/
def matches_admission (record_admission_id admission_id : String) : Bool :=
  record_admission_id ≠ "" && record_admission_id == admission_id

/-- Result shape of `_collect_admission_billing_state`. -/
structure BillingState where
  charge_entries : List AdmissionCharge
  pending_charge_entries : List AdmissionCharge
  existing_bills : List Billing
  used_registration_charges : List String
  used_room_bed_charges : List String
  total_nursing_care_days : ℚ

/-- Insert `x` into a descending-sorted list after every element whose key
is ≥ its own, preserving the relative order of equal keys. -/
def insertByDesc {α : Type} (key : α → String) (x : α) : List α → List α
  | [] => [x]
  | y :: ys => if key x ≤ key y then y :: insertByDesc key x ys else x :: y :: ys

/-- `list.sort(key=..., reverse=True)`: stable descending sort by a string
key (ties keep original order).  A stable sort's output is uniquely
determined by the comparator, so this structural insertion sort computes
exactly what Python's stable sort does. -/
def sortByKeyDesc {α : Type} (key : α → String) (l : List α) : List α :=
  l.foldl (fun acc x => insertByDesc key x acc) []

/-- `_collect_admission_billing_state(admission_id)`: gather charge history,
usage trackers, and bills for a specific admission. -/
def collect_admission_billing_state (s : Store) (admission_id : String) :
    BillingState :=
  let matching_entries :=
    s.charge_entries.filter (fun e => matches_admission e.admission_id admission_id)
  let pending_charge_entries :=
    matching_entries.filter (fun e => e.status == "Pending")
  let t1 := matching_entries.foldl
    (fun t e => update_tracking t e.parsed_charges) ⟨[], [], 0⟩
  let matching_bills :=
    s.bills.filter (fun b =>
      matches_admission b.admission_id admission_id && b.bill_status != "Merged")
  let t2 := matching_bills.foldl
    (fun t b =>
      if b.bill_status == "Draft" || b.bill_status == "Final" then
        update_tracking t (b.charges_json.getD [])
      else t) t1
  { charge_entries := sortByKeyDesc (fun e => e.created_at) matching_entries
    pending_charge_entries := pending_charge_entries
    existing_bills := sortByKeyDesc (fun b => b.billing_date) matching_bills
    used_registration_charges := t2.used_registration_charges
    used_room_bed_charges := t2.used_room_bed_charges
    total_nursing_care_days := t2.total_nursing_care_days }

/-- `_find_admission(admission_id)`. -/
def find_admission (admissions : List Admission) (admission_id : ℤ) :
    Option Admission :=
  admissions.find? (fun a => a.admission_id == admission_id)

/-- Accumulate decimal digits; any non-digit fails the parse. -/
def parseNatAux : List Char → ℕ → Option ℕ
  | [], acc => some acc
  | c :: cs, acc =>
    if c.isDigit then parseNatAux cs (acc * 10 + (c.toNat - '0'.toNat)) else none

/-- Python `int(s)` on the canonical id strings this system writes
(optionally signed decimal digits; anything else raises `ValueError`,
modelled as `none`). -/
def str_to_int (s : String) : Option ℤ :=
  match s.data with
  | [] => none
  | '-' :: cs =>
    if cs.isEmpty then none else (parseNatAux cs 0).map (fun n => -(n : ℤ))
  | cs => (parseNatAux cs 0).map (fun n => (n : ℤ))

/-- `int(admission_id)` then `_find_admission`; a `ValueError` leaves the
admission unresolved. -/
def find_admission_by_str (admissions : List Admission) (admission_id : String) :
    Option Admission :=
  match str_to_int admission_id with
  | none => none
  | some n => find_admission admissions n

/-- Python `int(q)` truncation toward zero on a rational. -/
def ratTrunc (q : ℚ) : ℤ := if q < 0 then ⌈q⌉ else ⌊q⌋

/-- `delta = end_dt - admission_dt;
max(1, delta.days + (1 if delta.seconds > 0 else 0))` — `timedelta.days`
is floor division by 86400 and `timedelta.seconds` the non-negative
remainder, which `/` and `%` on `ℤ` compute for the positive divisor. -/
def admission_days_value (admission_dt end_dt : ℤ) : ℤ :=
  let delta := end_dt - admission_dt
  max 1 (delta / 86400 + (if delta % 86400 > 0 then 1 else 0))

/-- `admission_days_for_nursing`: `0` when the admission is unresolved or
its admission datetime cell is empty, `1` when either datetime fails to
parse (the `except` path), else the day-count formula with end = discharge
time if set, otherwise now. -/
def admission_days_for_nursing (adm : Option Admission) (now : ℤ) : ℤ :=
  match adm with
  | none => 0
  | some a =>
    match a.admission_date_time with
    | .missing => 0
    | .malformed => 1
    | .parsed start =>
      match a.discharge_date_time with
      | .missing => admission_days_value start now
      | .malformed => 1
      | .parsed discharge => admission_days_value start discharge

/-- The admission day count the nursing check of a request uses. -/
def nursing_admission_days (env : Env) (form : BillingForm) : ℤ :=
  admission_days_for_nursing
    (find_admission_by_str env.admissions form.admission_id) env.now

/-- `available_days = admission_days_for_nursing - total_nursing_care_days`
(the tracker total passes through `int(...)` at the top of the POST branch). -/
def nursing_available_days (env : Env) (st : BillingState) (form : BillingForm) : ℤ :=
  nursing_admission_days env form - ratTrunc st.total_nursing_care_days

/-- The duplicate message pushed when nursing days are exhausted. -/
def nursing_exhausted_msg (admission_days : ℤ) : String :=
  "Nursing Care Charge (already applied for all " ++ toString admission_days ++ " days)"

/-- What the per-field loop does with one charge field. -/
inductive FieldOutcome where
  | skipped
  | duplicate (display_name : String)
  | item (li : LineItem)
  deriving DecidableEq

/-- Append a line item for `field_name` with the given quantity, or skip it
when the charge-master amount fails to parse (`except ... pass`). -/
def make_charge_item (env : Env) (field_name : String) (qty : ℤ) : FieldOutcome :=
  match env.charge_master_dict field_name with
  | none => .skipped
  | some amount =>
    .item { charge_code := field_name
            charge_name := pyTitle field_name
            quantity := (qty : ℚ)
            unit_price := amount
            total := amount * (qty : ℚ) }

/-- One iteration of the `for field_name in CHARGE_FIELD_ORDER` loop of the
POST branch: duplicate registration / room-bed checks, the nursing-day
clamp, then the charge-master price lookup. -/
def process_charge_field (env : Env) (st : BillingState) (form : BillingForm)
    (field_name : String) : FieldOutcome :=
  let qty := form.qty field_name
  if qty > 0 then
    if registration_charges.contains field_name &&
        st.used_registration_charges.contains field_name then
      .duplicate (pyTitle field_name)
    else if room_bed_charges_set.contains field_name &&
        st.used_room_bed_charges.contains field_name then
      .duplicate (pyTitle field_name)
    else if field_name == "nursing_care_charge" && form.admission_id != "" then
      let available_days := nursing_available_days env st form
      if qty > available_days then
        if available_days ≤ 0 then
          .duplicate (nursing_exhausted_msg (nursing_admission_days env form))
        else
          make_charge_item env field_name available_days
      else
        make_charge_item env field_name qty
    else
      make_charge_item env field_name qty
  else
    .skipped

/-- The whole per-field loop: collected duplicate display names and the
current-selection line items, in field order. -/
def process_form_charges (env : Env) (st : BillingState) (form : BillingForm) :
    List String × List LineItem :=
  CHARGE_FIELD_ORDER.foldl
    (fun acc field_name =>
      match process_charge_field env st form field_name with
      | .skipped => acc
      | .duplicate n => (acc.1 ++ [n], acc.2)
      | .item li => (acc.1, acc.2 ++ [li])) ([], [])

/-- The first line item carrying a code; `find_by_code l c ≠ none` is the
dict-membership test `charge_code in combined_charges`. -/
def find_by_code (L : List LineItem) (c : String) : Option LineItem :=
  L.find? (fun x => x.charge_code == c)

/-- The in-place update `existing["quantity"] += q; existing["total"] += t`. -/
def bump_item (q t : ℚ) (e : LineItem) : LineItem :=
  { e with quantity := e.quantity + q, total := e.total + t }

/-- One step of `_merge_charge_list`: skip empty codes, sum quantity and
total into an existing entry of `combined_charges`, or append a fresh one
(Python dicts preserve insertion order, and updating a key in place keeps
its position). -/
def merge_charge_item (combined : List LineItem) (charge : LineItem) : List LineItem :=
  if charge.charge_code = "" then combined
  else
    match find_by_code combined charge.charge_code with
    | some _ =>
      combined.map (fun e =>
        if e.charge_code == charge.charge_code then
          bump_item charge.quantity charge.total e
        else e)
    | none => combined ++ [charge]

/-- `_merge_charge_list(charge_list)` on accumulator `combined`. -/
def merge_charge_list (combined : List LineItem) (charge_list : List LineItem) :
    List LineItem :=
  charge_list.foldl merge_charge_item combined

/-- The legacy draft bills folded on generate. -/
def draft_bills (st : BillingState) : List Billing :=
  st.existing_bills.filter (fun b => b.bill_status == "Draft")

/-- All line items a generate merges, in application order: pending
charge entries, then legacy draft bills (an unparseable or empty
`charges_json` contributes nothing), then the current selection. -/
def generate_sources (st : BillingState) (current : List LineItem) : List LineItem :=
  (st.pending_charge_entries.map (fun e => e.parsed_charges)).flatten
  ++ ((draft_bills st).map (fun b => b.charges_json.getD [])).flatten
  ++ current

/-- Sum of `discount` across merged sources: every pending entry, plus each
draft bill whose `charges_json` parses (on a parse failure the `except`
skips that bill's discount and tax together with its charges). -/
def merged_discount (st : BillingState) : ℚ :=
  (st.pending_charge_entries.map (fun e => e.discount)).sum
  + ((draft_bills st).map (fun b =>
      match b.charges_json with | some _ => b.discount | none => 0)).sum

/-- Sum of `tax` across merged sources, as for `merged_discount`. -/
def merged_tax (st : BillingState) : ℚ :=
  (st.pending_charge_entries.map (fun e => e.tax)).sum
  + ((draft_bills st).map (fun b =>
      match b.charges_json with | some _ => b.tax | none => 0)).sum

/-- `int(qty) if abs(qty - int(qty)) < 1e-6 else qty`. -/
def normalize_quantity (q : ℚ) : ℚ :=
  if |q - (ratTrunc q : ℚ)| < 1 / 1000000 then (ratTrunc q : ℚ) else q

/-- The per-item normalization applied to each merged charge. -/
def normalize_item (li : LineItem) : LineItem :=
  { li with quantity := normalize_quantity li.quantity }

/-- The merged and normalized charge list of a generate. -/
def combined_charges (st : BillingState) (current : List LineItem) : List LineItem :=
  (merge_charge_list [] (generate_sources st current)).map normalize_item

/-- `max(ids) + 1 if ids else 1` over the admission-charge sheet. -/
def next_charge_entry_id (entries : List AdmissionCharge) : ℕ :=
  (entries.map (fun e => e.charge_entry_id)).foldr max 0 + 1

/-- `max(ids) + 1 if ids else 1` over the billing sheet. -/
def next_bill_id (bills : List Billing) : ℕ :=
  (bills.map (fun b => b.bill_id)).foldr max 0 + 1

/-- Zero-pad a number to `width` digits, as Python `"%0*d"`. -/
def zpad (width : ℕ) (n : ℕ) : String :=
  let s := toString n
  String.mk (List.replicate (width - s.length) '0') ++ s

/-- `_update_bill_row`: rewrite the first sheet row whose id matches. -/
def update_bill_row : List Billing → Billing → List Billing
  | [], _ => []
  | x :: xs, b =>
    if x.bill_id == b.bill_id then b :: xs else x :: update_bill_row xs b

/-- `_update_admission_charge_row`: rewrite the first row whose id matches. -/
def update_admission_charge_row :
    List AdmissionCharge → AdmissionCharge → List AdmissionCharge
  | [], _ => []
  | x :: xs, e =>
    if x.charge_entry_id == e.charge_entry_id then e :: xs
    else x :: update_admission_charge_row xs e

/-- Error message for a POST without an admission id. -/
def missing_admission_msg : String :=
  "Billing is only available for admitted patients. Please select an admission."

/-- Error message when a final bill already exists. -/
def final_bill_exists_msg (bill_number : String) : String :=
  "A final bill (Bill No: " ++ bill_number ++ ") already exists for this admission. Only one final bill can be generated per admission."

/-- Error message listing every duplicate charge collected. -/
def duplicate_charges_msg (duplicates : List String) : String :=
  "The following charges have already been applied and cannot be added again: "
  ++ String.intercalate ", " duplicates

/-- Error message for an empty charge list. -/
def at_least_one_charge_msg : String :=
  "Please select at least one charge before saving or generating a bill."

/-- The duplicate list and current-selection items of a request. -/
def current_processed (env : Env) (s : Store) (form : BillingForm) :
    List String × List LineItem :=
  process_form_charges env (collect_admission_billing_state s form.admission_id) form

/-- The existing Final bill the generate action trips over, if any
(the check runs only for `action == "generate"`, over the collected
non-merged bills in sorted order). -/
def final_bill_conflict (s : Store) (form : BillingForm) : Option Billing :=
  if form.action == "generate" then
    (collect_admission_billing_state s form.admission_id).existing_bills.find?
      (fun b => b.bill_status == "Final")
  else none

/-- The charge list the request persists: the merged-and-normalized
combination on generate, the raw current selection otherwise. -/
def final_charges (env : Env) (s : Store) (form : BillingForm) : List LineItem :=
  if form.action == "generate" then
    combined_charges (collect_admission_billing_state s form.admission_id)
      (current_processed env s form).2
  else (current_processed env s form).2

/-- `total_discount`: merged sources plus the form field on generate,
the form field alone otherwise. -/
def final_discount (_env : Env) (s : Store) (form : BillingForm) : ℚ :=
  if form.action == "generate" then
    merged_discount (collect_admission_billing_state s form.admission_id) + form.discount
  else form.discount

/-- `total_tax`, as for `final_discount`. -/
def final_tax (_env : Env) (s : Store) (form : BillingForm) : ℚ :=
  if form.action == "generate" then
    merged_tax (collect_admission_billing_state s form.admission_id) + form.tax
  else form.tax

/-- `subtotal = sum(charge["total"] for charge in charges)`. -/
def final_subtotal (env : Env) (s : Store) (form : BillingForm) : ℚ :=
  ((final_charges env s form).map (fun c => c.total)).sum

/-- `total_amount = subtotal - total_discount + total_tax`. -/
def final_total_amount (env : Env) (s : Store) (form : BillingForm) : ℚ :=
  final_subtotal env s form - final_discount env s form + final_tax env s form

/-- The ChargeEntry a successful save persists (`_create_admission_charge`
fills `created_at` from the absent payload key as `""`). -/
def saved_entry (env : Env) (s : Store) (form : BillingForm) : AdmissionCharge :=
  { charge_entry_id := next_charge_entry_id s.charge_entries
    admission_id := form.admission_id
    patient_id := form.patient_id
    patient_name := form.patient_name
    billing_type := form.billing_type
    parsed_charges := final_charges env s form
    subtotal := final_subtotal env s form
    discount := final_discount env s form
    tax := final_tax env s form
    total_amount := final_total_amount env s form
    status := "Pending"
    created_at := "" }

/-- Store and outcome of a successful save. -/
def save_result (env : Env) (s : Store) (form : BillingForm) :
    Store × BillingOutcome :=
  ({ s with charge_entries := s.charge_entries ++ [saved_entry env s form] },
   .saved (saved_entry env s form))

/-- The Bill a successful generate persists (`_create_bill` assigns the
next id and the `BILL` + 6-digit number). -/
def generated_bill (env : Env) (s : Store) (form : BillingForm) : Billing :=
  { bill_id := next_bill_id s.bills
    bill_number := "BILL" ++ zpad 6 (next_bill_id s.bills)
    patient_id := form.patient_id
    patient_name := form.patient_name
    admission_id := form.admission_id
    billing_date := env.today
    billing_type := form.billing_type
    charges_json := some (final_charges env s form)
    subtotal := final_subtotal env s form
    discount := final_discount env s form
    tax := final_tax env s form
    total_amount := final_total_amount env s form
    payment_status := "Pending"
    payment_mode := ""
    payment_reference := ""
    notes := ""
    bill_status := "Final" }

/-- Store and outcome of the non-save branch: append the new Final bill,
flip the folded legacy draft bills (collected only when the action string
is exactly `"generate"`) to Merged, then flip every pending charge entry
of the admission to Merged. -/
def generate_result (env : Env) (s : Store) (form : BillingForm) :
    Store × BillingOutcome :=
  let billing_state := collect_admission_billing_state s form.admission_id
  let new_bill := generated_bill env s form
  let bills1 := s.bills ++ [new_bill]
  let used_drafts :=
    if form.action == "generate" then draft_bills billing_state else []
  let bills2 := used_drafts.foldl
    (fun bs b =>
      if b.bill_id ≠ new_bill.bill_id then
        update_bill_row bs { b with bill_status := "Merged" }
      else bs) bills1
  let entries2 := billing_state.pending_charge_entries.foldl
    (fun es e => update_admission_charge_row es { e with status := "Merged" })
    s.charge_entries
  ({ charge_entries := entries2, bills := bills2 }, .generated new_bill)

/-- The POST branch of `index_billing`, from the `action` read to the
persisted outcome.  Returns the record store after the request together
with the outcome; every error path returns the store unchanged, mirroring
the source's redirect-before-write structure. -/
def index_billing_post (env : Env) (s : Store) (form : BillingForm) :
    Store × BillingOutcome :=
  if form.admission_id = "" then (s, .error missing_admission_msg)
  else
    match final_bill_conflict s form with
    | some bill => (s, .error (final_bill_exists_msg bill.bill_number))
    | none =>
      if (current_processed env s form).1 ≠ [] then
        (s, .error (duplicate_charges_msg (current_processed env s form).1))
      else if final_charges env s form = [] then
        (s, .error at_least_one_charge_msg)
      else if form.action == "save" then save_result env s form
      else generate_result env s form

/-- The `delete_charge` action of `edit_bill`: remove the charge at the
given index and recompute `subtotal` / `total_amount`; an out-of-range
index writes nothing. -/
def delete_charge_action (bill : Billing) (charge_index : ℤ) : Option Billing :=
  let charges := bill.charges_json.getD []
  if 0 ≤ charge_index ∧ charge_index < charges.length then
    let charges' := charges.eraseIdx charge_index.toNat
    let subtotal := (charges'.map (fun c => c.total)).sum
    let total_amount := subtotal - bill.discount + bill.tax
    some { bill with charges_json := some charges'
                     subtotal := subtotal
                     total_amount := total_amount }
  else none

/-- The `update_bill` action of `edit_bill`: keep each line whose form
quantity is present, parses and is positive, updating quantity and total;
`discount_tax = none` models the joint parse-failure fallback to the
bill's stored discount and tax. -/
def update_bill_action (bill : Billing) (qty_form : String → Option ℚ)
    (discount_tax : Option (ℚ × ℚ)) : Billing :=
  let charges := bill.charges_json.getD []
  let updated_charges := charges.filterMap (fun c =>
    match qty_form c.charge_code with
    | none => none
    | some q =>
      if q > 0 then
        some { c with quantity := q, total := c.unit_price * q }
      else none)
  let discount := (discount_tax.getD (bill.discount, bill.tax)).1
  let tax := (discount_tax.getD (bill.discount, bill.tax)).2
  let subtotal := (updated_charges.map (fun c => c.total)).sum
  let total_amount := subtotal - discount + tax
  { bill with charges_json := some updated_charges
              subtotal := subtotal
              discount := discount
              tax := tax
              total_amount := total_amount }

/-! ## Helper lemmas -/

/-- The duplicate name, if any, a field outcome contributes. -/
def field_outcome_dup : FieldOutcome → Option String
  | .duplicate n => some n
  | _ => none

/-- The line item, if any, a field outcome contributes. -/
def field_outcome_item : FieldOutcome → Option LineItem
  | .item li => some li
  | _ => none

lemma process_foldl_eq (env : Env) (st : BillingState) (form : BillingForm)
    (l : List String) (acc : List String × List LineItem) :
    l.foldl
      (fun acc field_name =>
        match process_charge_field env st form field_name with
        | .skipped => acc
        | .duplicate n => (acc.1 ++ [n], acc.2)
        | .item li => (acc.1, acc.2 ++ [li])) acc =
      (acc.1 ++ l.filterMap (fun f => field_outcome_dup (process_charge_field env st form f)),
       acc.2 ++ l.filterMap (fun f => field_outcome_item (process_charge_field env st form f))) := by
  induction l generalizing acc with
  | nil => simp
  | cons x xs ih =>
    simp only [List.foldl_cons, List.filterMap_cons]
    cases h : process_charge_field env st form x <;>
      simp [h, ih, field_outcome_dup, field_outcome_item, List.append_assoc]

/-- `process_form_charges` splits field-wise: the duplicate list and item
list are the per-field contributions in `CHARGE_FIELD_ORDER` order. -/
lemma process_form_charges_eq (env : Env) (st : BillingState) (form : BillingForm) :
    process_form_charges env st form =
      (CHARGE_FIELD_ORDER.filterMap
         (fun f => field_outcome_dup (process_charge_field env st form f)),
       CHARGE_FIELD_ORDER.filterMap
         (fun f => field_outcome_item (process_charge_field env st form f))) := by
  simpa [process_form_charges] using
    process_foldl_eq env st form CHARGE_FIELD_ORDER ([], [])

/-- Any error outcome leaves the store untouched. -/
lemma error_frame {env : Env} {s : Store} {form : BillingForm} {s' : Store}
    {msg : String} (h : index_billing_post env s form = (s', .error msg)) :
    s' = s := by
  unfold index_billing_post at h
  split at h
  · exact ((Prod.mk.injEq _ _ _ _).mp h).1.symm
  · split at h
    · exact ((Prod.mk.injEq _ _ _ _).mp h).1.symm
    · split at h
      · exact ((Prod.mk.injEq _ _ _ _).mp h).1.symm
      · split at h
        · exact ((Prod.mk.injEq _ _ _ _).mp h).1.symm
        · split at h
          · simp [save_result, Prod.ext_iff] at h
          · simp [generate_result, Prod.ext_iff] at h

/-- Inversion for a save success. -/
lemma saved_inversion {env : Env} {s : Store} {form : BillingForm} {s' : Store}
    {e : AdmissionCharge} (h : index_billing_post env s form = (s', .saved e)) :
    form.admission_id ≠ "" ∧
    final_bill_conflict s form = none ∧
    (current_processed env s form).1 = [] ∧
    final_charges env s form ≠ [] ∧
    form.action = "save" ∧
    e = saved_entry env s form ∧
    s' = { s with charge_entries := s.charge_entries ++ [saved_entry env s form] } := by
  unfold index_billing_post at h
  split at h
  · simp [Prod.ext_iff] at h
  · rename_i hadm
    split at h
    · simp [Prod.ext_iff] at h
    · rename_i hconf
      split at h
      · simp [Prod.ext_iff] at h
      · rename_i hdup
        split at h
        · simp [Prod.ext_iff] at h
        · rename_i hne
          split at h
          · rename_i hsave
            simp only [save_result, Prod.mk.injEq] at h
            refine ⟨hadm, hconf, by simpa using hdup, hne, by simpa using hsave,
              ?_, ?_⟩
            · cases h.2; rfl
            · exact h.1.symm
          · simp [generate_result, Prod.ext_iff] at h

/-- Inversion for a generate (non-save) success. -/
lemma generated_inversion {env : Env} {s : Store} {form : BillingForm} {s' : Store}
    {nb : Billing} (h : index_billing_post env s form = (s', .generated nb)) :
    form.admission_id ≠ "" ∧
    final_bill_conflict s form = none ∧
    (current_processed env s form).1 = [] ∧
    final_charges env s form ≠ [] ∧
    form.action ≠ "save" ∧
    nb = generated_bill env s form ∧
    (s', BillingOutcome.generated nb) = generate_result env s form := by
  unfold index_billing_post at h
  split at h
  · simp [Prod.ext_iff] at h
  · rename_i hadm
    split at h
    · simp [Prod.ext_iff] at h
    · rename_i hconf
      split at h
      · simp [Prod.ext_iff] at h
      · rename_i hdup
        split at h
        · simp [Prod.ext_iff] at h
        · rename_i hne
          split at h
          · simp [save_result, Prod.ext_iff] at h
          · rename_i hsave
            have hnb : nb = generated_bill env s form := by
              have := congrArg Prod.snd h.symm
              simp only [generate_result] at this
              simpa using this
            exact ⟨hadm, hconf, by simpa using hdup, hne,
              by simpa using hsave, hnb, h.symm⟩

lemma mem_insertByDesc {α : Type} {key : α → String} {x a : α} :
    ∀ {l : List α}, a ∈ insertByDesc key x l ↔ a = x ∨ a ∈ l := by
  intro l
  induction l with
  | nil => simp [insertByDesc]
  | cons y ys ih =>
    rw [insertByDesc]
    split
    · simp only [List.mem_cons, ih]
      tauto
    · simp only [List.mem_cons]

/-- The stable sort is membership-preserving. -/
lemma mem_sortByKeyDesc {α : Type} {key : α → String} {a : α} {l : List α} :
    a ∈ sortByKeyDesc key l ↔ a ∈ l := by
  suffices h : ∀ (l : List α) (acc : List α),
      a ∈ l.foldl (fun acc x => insertByDesc key x acc) acc ↔ a ∈ acc ∨ a ∈ l by
    simpa [sortByKeyDesc] using h l []
  intro l
  induction l with
  | nil => simp
  | cons x xs ih =>
    intro acc
    rw [List.foldl_cons, ih, mem_insertByDesc]
    simp only [List.mem_cons]
    tauto

/-- Membership in the collected non-merged bills of an admission. -/
lemma mem_existing_bills {s : Store} {adm : String} {b : Billing} :
    b ∈ (collect_admission_billing_state s adm).existing_bills ↔
      b ∈ s.bills ∧ matches_admission b.admission_id adm = true ∧
        b.bill_status ≠ "Merged" := by
  simp [collect_admission_billing_state, mem_sortByKeyDesc,
    List.mem_filter, bne_iff_ne, and_assoc]

/-- The collected pending charge entries, as a single filter. -/
lemma pending_charge_entries_eq (s : Store) (adm : String) :
    (collect_admission_billing_state s adm).pending_charge_entries =
      s.charge_entries.filter
        (fun e => e.status == "Pending" && matches_admission e.admission_id adm) := by
  simp [collect_admission_billing_state, List.filter_filter]

/-- A matching non-merged Final bill forces `final_bill_conflict` to fire. -/
lemma final_bill_conflict_fires {s : Store} {form : BillingForm} {b : Billing}
    (hact : form.action = "generate") (hb : b ∈ s.bills)
    (hmatch : b.admission_id = form.admission_id)
    (hadm : form.admission_id ≠ "") (hstat : b.bill_status = "Final") :
    ∃ b', final_bill_conflict s form = some b' ∧ b' ∈ s.bills ∧
      b'.admission_id = form.admission_id ∧ b'.bill_status = "Final" := by
  have hmem : b ∈ (collect_admission_billing_state s form.admission_id).existing_bills := by
    rw [mem_existing_bills]
    refine ⟨hb, ?_, by simp [hstat]⟩
    simp [matches_admission, hmatch, hadm]
  rw [final_bill_conflict, if_pos (by simp [hact])]
  cases hfind : (collect_admission_billing_state s form.admission_id).existing_bills.find?
      (fun b => b.bill_status == "Final") with
  | none =>
    exact absurd (by simp [hstat]) (List.find?_eq_none.mp hfind b hmem)
  | some b' =>
    exact ⟨b', rfl, by
      have := List.mem_of_find?_eq_some hfind
      rw [mem_existing_bills] at this
      exact this.1, by
      have := List.mem_of_find?_eq_some hfind
      rw [mem_existing_bills] at this
      have hm := this.2.1
      simp [matches_admission] at hm
      exact hm.2, by
      have := List.find?_some hfind
      simpa using this⟩

/-- When the duplicate-final check fires, the request is rejected with the
message naming that bill and the store is untouched. -/
lemma post_conflict_error {env : Env} {s : Store} {form : BillingForm} {b' : Billing}
    (hadm : form.admission_id ≠ "") (hconf : final_bill_conflict s form = some b') :
    index_billing_post env s form =
      (s, .error (final_bill_exists_msg b'.bill_number)) := by
  unfold index_billing_post
  rw [if_neg hadm, hconf]

/-- `_update_bill_row` never removes a row with a different id. -/
lemma mem_update_bill_row {x b : Billing} :
    ∀ {bs : List Billing}, x ∈ bs → x.bill_id ≠ b.bill_id →
      x ∈ update_bill_row bs b := by
  intro bs
  induction bs with
  | nil => simp
  | cons y ys ih =>
    intro hx hne
    rw [update_bill_row]
    split
    · rename_i hyb
      rcases List.mem_cons.mp hx with rfl | htail
      · exact absurd (by simpa using hyb) hne
      · exact List.mem_cons_of_mem _ htail
    · rcases List.mem_cons.mp hx with rfl | htail
      · exact List.mem_cons_self _ _
      · exact List.mem_cons_of_mem _ (ih htail hne)

/-- The draft-merging fold keeps any bill whose id the guard protects. -/
lemma mem_draft_fold {x : Billing} :
    ∀ (ds : List Billing) (bs : List Billing), x ∈ bs →
      x ∈ ds.foldl
        (fun bs b =>
          if b.bill_id ≠ x.bill_id then
            update_bill_row bs { b with bill_status := "Merged" }
          else bs) bs := by
  intro ds
  induction ds with
  | nil => intro bs hx; simpa using hx
  | cons d ds ih =>
    intro bs hx
    simp only [List.foldl_cons]
    split
    · rename_i hguard
      exact ih _ (mem_update_bill_row hx (fun hxd => hguard (by simpa using hxd.symm)))
    · exact ih _ hx

/-- A generate success leaves the freshly created Final bill in the store. -/
lemma generated_bill_mem {env : Env} {s : Store} {form : BillingForm} {s' : Store}
    {nb : Billing} (h : index_billing_post env s form = (s', .generated nb)) :
    nb ∈ s'.bills ∧ nb.bill_status = "Final" ∧ nb.admission_id = form.admission_id := by
  obtain ⟨_, _, _, _, _, hnb, hres⟩ := generated_inversion h
  have hbills : s'.bills =
      (if form.action == "generate"
        then draft_bills (collect_admission_billing_state s form.admission_id) else []).foldl
        (fun bs b =>
          if b.bill_id ≠ (generated_bill env s form).bill_id then
            update_bill_row bs { b with bill_status := "Merged" }
          else bs) (s.bills ++ [generated_bill env s form]) := by
    have := congrArg (fun p => p.1.bills) hres
    simpa only [generate_result] using this
  subst hnb
  refine ⟨?_, rfl, rfl⟩
  rw [hbills]
  exact mem_draft_fold _ _ (by simp)

/-- C1: for every admission, at most one non-merged Final bill exists: a
generate request for an admission that already has a non-merged Final bill
is rejected with an error naming that bill's number and the store is left
unchanged (no new Bill); consequently a repeated generate after a
successful one is rejected. -/
theorem C1_at_most_one_final_bill :
    (∀ (env : Env) (s : Store) (form : BillingForm) (b : Billing),
      b ∈ s.bills → b.admission_id = form.admission_id →
      form.admission_id ≠ "" → b.bill_status = "Final" →
      form.action = "generate" →
      ∃ b', b' ∈ s.bills ∧ b'.admission_id = form.admission_id ∧
        b'.bill_status = "Final" ∧
        index_billing_post env s form =
          (s, .error (final_bill_exists_msg b'.bill_number))) ∧
    (∀ (env env' : Env) (s s' : Store) (form form' : BillingForm) (nb : Billing),
      index_billing_post env s form = (s', .generated nb) →
      form'.action = "generate" → form'.admission_id = form.admission_id →
      ∃ msg, index_billing_post env' s' form' = (s', .error msg)) := by
  constructor
  · intro env s form b hb hmatch hadm hstat hact
    obtain ⟨b', hconf, hb', hmatch', hstat'⟩ :=
      final_bill_conflict_fires hact hb hmatch hadm hstat
    exact ⟨b', hb', hmatch', hstat', post_conflict_error hadm hconf⟩
  · intro env env' s s' form form' nb h hact' hadm'
    obtain ⟨hadm, _, _, _, _, _, _⟩ := generated_inversion h
    obtain ⟨hmem, hstat, hmatch⟩ := generated_bill_mem h
    obtain ⟨b', hconf, _, _, _⟩ :=
      @final_bill_conflict_fires s' form' nb hact' hmem
        (by rw [hmatch, hadm']) (hadm' ▸ hadm) hstat
    exact ⟨_, post_conflict_error (hadm' ▸ hadm) hconf⟩

/-- C9: every rejection of a save or generate request performs no
persistence at all, and a request without an admission identifier is
rejected up front with the missing-admission error. -/
theorem C9_rejections_persist_nothing :
    (∀ (env : Env) (s : Store) (form : BillingForm) (s' : Store) (msg : String),
      index_billing_post env s form = (s', .error msg) → s' = s) ∧
    (∀ (env : Env) (s : Store) (form : BillingForm),
      form.admission_id = "" →
      index_billing_post env s form = (s, .error missing_admission_msg)) := by
  constructor
  · intro env s form s' msg h
    exact error_frame h
  · intro env s form hadm
    unfold index_billing_post
    rw [if_pos hadm]

/-! ## Concrete fixtures for witnesses -/

/-- A concrete dressing line item. -/
def wLineItem : LineItem :=
  { charge_code := "dressing", charge_name := "Dressing",
    quantity := 2, unit_price := 100, total := 200 }

/-- A concrete Final bill for admission `"1"`. -/
def wFinalBill : Billing :=
  { bill_id := 1, bill_number := "BILL000001", patient_id := "1",
    patient_name := "P", admission_id := "1", billing_date := "2024-01-02",
    billing_type := "IPD", charges_json := some [wLineItem], subtotal := 200,
    discount := 0, tax := 0, total_amount := 200, payment_status := "Pending",
    payment_mode := "", payment_reference := "", notes := "",
    bill_status := "Final" }

/-- A concrete admission: id 1, admitted 2024-01-01T10:00 (epoch base
2024-01-01T00:00 = 0, so 36000 s), not discharged. -/
def wAdmission : Admission :=
  { admission_id := 1, admission_date_time := .parsed 36000,
    discharge_date_time := .missing }

/-- A concrete environment whose clock reads 2024-01-03T09:00 (205200 s). -/
def wEnv : Env :=
  { admissions := [wAdmission], charge_master_dict := fun _ => some 100,
    now := 205200, today := "2024-01-03" }

/-- A store already holding the Final bill. -/
def wStoreFinal : Store := { charge_entries := [], bills := [wFinalBill] }

/-- A generate request for admission `"1"` selecting nothing. -/
def wGenForm : BillingForm :=
  { action := "generate", patient_id := "1", patient_name := "P",
    admission_id := "1", billing_type := "IPD", qty := fun _ => 0,
    discount := 0, tax := 0 }

/-- The same request without an admission identifier. -/
def wNoAdmForm : BillingForm := { wGenForm with admission_id := "" }

/-- Witness for C1 at a concrete store holding a Final bill. -/
theorem C1_witness :
    ∃ b', b' ∈ wStoreFinal.bills ∧ b'.admission_id = wGenForm.admission_id ∧
      b'.bill_status = "Final" ∧
      index_billing_post wEnv wStoreFinal wGenForm =
        (wStoreFinal, .error (final_bill_exists_msg b'.bill_number)) :=
  C1_at_most_one_final_bill.1 wEnv wStoreFinal wGenForm wFinalBill
    (by simp [wStoreFinal]) rfl (by decide) rfl rfl

/-- Witness for C9 at a concrete request without an admission identifier. -/
theorem C9_witness :
    index_billing_post wEnv wStoreFinal wNoAdmForm =
      (wStoreFinal, .error missing_admission_msg) ∧ wStoreFinal = wStoreFinal :=
  have h := C9_rejections_persist_nothing.2 wEnv wStoreFinal wNoAdmForm rfl
  ⟨h, C9_rejections_persist_nothing.1 wEnv wStoreFinal wNoAdmForm wStoreFinal
    missing_admission_msg h⟩

/-! ## Day-count arithmetic -/

/-- `timedelta`-style day/second decomposition computes a ceiling:
`n / 86400 + (1 if n % 86400 > 0 else 0) = ⌈n / 86400⌉`. -/
lemma ceil_div_86400 (n : ℤ) :
    ⌈(n : ℚ) / 86400⌉ = n / 86400 + (if n % 86400 > 0 then 1 else 0) := by
  have h : ⌈(n : ℚ) / 86400⌉ = -((-n) / 86400) := by
    rw [show ((n : ℚ) / 86400) = -(((-n : ℤ) : ℚ) / ((86400 : ℕ) : ℚ)) by
      push_cast; ring]
    rw [Int.ceil_neg, Rat.floor_intCast_div_natCast]
    norm_num
  rw [h]
  split <;> omega

/-- The source day-count formula equals `max 1 ⌈(end − start)/86400⌉`. -/
lemma admission_days_value_eq (start end_dt : ℤ) :
    admission_days_value start end_dt =
      max 1 ⌈((end_dt : ℚ) - (start : ℚ)) / 86400⌉ := by
  rw [show ((end_dt : ℚ) - (start : ℚ)) = ((end_dt - start : ℤ) : ℚ) by push_cast; ring,
    ceil_div_86400]
  rfl

/-- C6 counterexample: for the spec's scenario — admitted 2024-01-01T10:00
(epoch base 2024-01-01T00:00, so 36000 s), no discharge, evaluated
2024-01-03T09:00 (205200 s) — the code's chargeable day count is 2, not
the 3 the claim asserts. -/
theorem C6_counterexample :
    admission_days_for_nursing (some wAdmission) 205200 = 2 ∧
    admission_days_for_nursing (some wAdmission) 205200 ≠ 3 := by
  constructor <;> decide

/-- C6 (amended): for every admission with a parsed admission datetime and
a parsed-or-absent discharge datetime, the chargeable day count equals
`max 1 ⌈(end − start)/86400⌉` with end = discharge time if set else now;
at the spec's scenario (admitted 2024-01-01T10:00, no discharge,
evaluated 2024-01-03T09:00) this equals 2 (not 3). -/
theorem C6_day_count_formula :
    (∀ (adm : Admission) (now start : ℤ),
      adm.admission_date_time = .parsed start →
      (∀ e, adm.discharge_date_time = .parsed e →
        admission_days_for_nursing (some adm) now
          = max 1 ⌈((e : ℚ) - (start : ℚ)) / 86400⌉) ∧
      (adm.discharge_date_time = .missing →
        admission_days_for_nursing (some adm) now
          = max 1 ⌈((now : ℚ) - (start : ℚ)) / 86400⌉)) ∧
    admission_days_for_nursing (some wAdmission) 205200 = 2 := by
  refine ⟨fun adm now start hstart => ⟨fun e he => ?_, fun hmiss => ?_⟩, by decide⟩
  · simp [admission_days_for_nursing, hstart, he, admission_days_value_eq]
  · simp [admission_days_for_nursing, hstart, hmiss, admission_days_value_eq]

/-- Witness for the amended C6 at the concrete scenario admission. -/
theorem C6_witness :
    admission_days_for_nursing (some wAdmission) 205200
      = max 1 ⌈((205200 : ℚ) - (36000 : ℚ)) / 86400⌉ :=
  (C6_day_count_formula.1 wAdmission 205200 36000 rfl).2 rfl

/-! ## Duplicate-charge rejection -/

/-- A selected charge code that collides with the admission's usage sets. -/
def is_duplicate_offender (st : BillingState) (f : String) : Prop :=
  (f ∈ registration_charges ∧ f ∈ st.used_registration_charges) ∨
  (f ∈ room_bed_charges_set ∧ f ∈ st.used_room_bed_charges)

instance (st : BillingState) (f : String) :
    Decidable (is_duplicate_offender st f) := by
  unfold is_duplicate_offender; infer_instance

/-- The registration and room/bed sets are disjoint. -/
lemma reg_room_disjoint : ∀ x ∈ room_bed_charges_set, x ∉ registration_charges := by
  decide

/-- An offending selected field is turned into its duplicate display name. -/
lemma process_field_offender {env : Env} {st : BillingState} {form : BillingForm}
    {f : String} (hq : form.qty f > 0) (hoff : is_duplicate_offender st f) :
    process_charge_field env st form f = .duplicate (pyTitle f) := by
  simp only [process_charge_field]
  rw [if_pos hq]
  rcases hoff with ⟨hreg, hused⟩ | ⟨hroom, hused⟩
  · rw [if_pos (by simp [hreg, hused])]
  · rw [if_neg (by simp [reg_room_disjoint f hroom]),
      if_pos (by simp [hroom, hused])]

/-- Every offending selected field's display name lands in the collected
duplicate list. -/
lemma offender_title_mem {env : Env} {s : Store} {form : BillingForm} {f : String}
    (hf : f ∈ CHARGE_FIELD_ORDER) (hq : form.qty f > 0)
    (hoff : is_duplicate_offender
      (collect_admission_billing_state s form.admission_id) f) :
    pyTitle f ∈ (current_processed env s form).1 := by
  rw [current_processed, process_form_charges_eq]
  exact List.mem_filterMap.mpr ⟨f, hf, by
    rw [process_field_offender hq hoff]; rfl⟩

/-- A non-empty duplicate list rejects the request with the listing message. -/
lemma post_duplicates_error {env : Env} {s : Store} {form : BillingForm}
    (hadm : form.admission_id ≠ "") (hconf : final_bill_conflict s form = none)
    (hdup : (current_processed env s form).1 ≠ []) :
    index_billing_post env s form =
      (s, .error (duplicate_charges_msg (current_processed env s form).1)) := by
  unfold index_billing_post
  rw [if_neg hadm, hconf]
  simp only [if_pos hdup]

/-- C3: a save or generate selecting (quantity > 0) a registration charge
already in the admission's used registration set, or a room/bed charge
already in the used room/bed set, is rejected outright — nothing is
persisted — and the rejection message lists the display names of every
offending selected charge, not only the first. -/
theorem C3_duplicate_charges_rejected :
    ∀ (env : Env) (s : Store) (form : BillingForm) (f0 : String),
      form.admission_id ≠ "" →
      final_bill_conflict s form = none →
      f0 ∈ CHARGE_FIELD_ORDER → form.qty f0 > 0 →
      is_duplicate_offender
        (collect_admission_billing_state s form.admission_id) f0 →
      index_billing_post env s form =
        (s, .error (duplicate_charges_msg (current_processed env s form).1)) ∧
      (∀ f ∈ CHARGE_FIELD_ORDER, form.qty f > 0 →
        is_duplicate_offender
          (collect_admission_billing_state s form.admission_id) f →
        pyTitle f ∈ (current_processed env s form).1) := by
  intro env s form f0 hadm hconf hf0 hq0 hoff0
  have hmem := @offender_title_mem env s form f0 hf0 hq0 hoff0
  refine ⟨post_duplicates_error hadm hconf (fun hnil => by simp [hnil] at hmem), ?_⟩
  intro f hf hq hoff
  exact offender_title_mem hf hq hoff

/-- A concrete ICU room-charge line item. -/
def wIcuItem : LineItem :=
  { charge_code := "icu", charge_name := "Icu", quantity := 1,
    unit_price := 500, total := 500 }

/-- A prior saved charge entry holding the ICU charge for admission `"1"`. -/
def wIcuEntry : AdmissionCharge :=
  { charge_entry_id := 1, admission_id := "1", patient_id := "1",
    patient_name := "P", billing_type := "IPD", parsed_charges := [wIcuItem],
    subtotal := 500, discount := 0, tax := 0, total_amount := 500,
    status := "Pending", created_at := "2024-01-01" }

/-- A store whose admission `"1"` has already used the ICU charge. -/
def wStoreIcu : Store := { charge_entries := [wIcuEntry], bills := [] }

/-- A second save selecting ICU again. -/
def wSaveIcuForm : BillingForm :=
  { action := "save", patient_id := "1", patient_name := "P",
    admission_id := "1", billing_type := "IPD",
    qty := fun f => if f == "icu" then 1 else 0, discount := 0, tax := 0 }

/-- Witness for C3: the second ICU save is rejected listing "Icu". -/
theorem C3_witness :
    index_billing_post wEnv wStoreIcu wSaveIcuForm =
      (wStoreIcu, .error (duplicate_charges_msg
        (current_processed wEnv wStoreIcu wSaveIcuForm).1)) ∧
    (∀ f ∈ CHARGE_FIELD_ORDER, wSaveIcuForm.qty f > 0 →
      is_duplicate_offender
        (collect_admission_billing_state wStoreIcu wSaveIcuForm.admission_id) f →
      pyTitle f ∈ (current_processed wEnv wStoreIcu wSaveIcuForm).1) :=
  C3_duplicate_charges_rejected wEnv wStoreIcu wSaveIcuForm "icu"
    (by decide) rfl (by decide) (by decide) (by decide)

/-! ## Nursing-day clamp -/

/-- The nursing charge belongs to neither duplicate-checked set. -/
lemma nursing_not_in_sets :
    "nursing_care_charge" ∉ registration_charges ∧
    "nursing_care_charge" ∉ room_bed_charges_set := by decide

/-- Exhausted nursing days turn the field into the exhausted message. -/
lemma process_field_nursing_exhausted {env : Env} {st : BillingState}
    {form : BillingForm} (hadm : form.admission_id ≠ "")
    (hq : form.qty "nursing_care_charge" > 0)
    (hav : nursing_available_days env st form ≤ 0) :
    process_charge_field env st form "nursing_care_charge" =
      .duplicate (nursing_exhausted_msg (nursing_admission_days env form)) := by
  simp only [process_charge_field]
  rw [if_pos hq, if_neg (by simp [nursing_not_in_sets.1]),
    if_neg (by simp [nursing_not_in_sets.2]),
    if_pos (by simp [hadm]), if_pos (by omega), if_pos hav]

/-- A request for more than the remaining positive nursing days is clamped
to exactly the available days. -/
lemma process_field_nursing_clamped {env : Env} {st : BillingState}
    {form : BillingForm} (hadm : form.admission_id ≠ "")
    (hav0 : 0 < nursing_available_days env st form)
    (havlt : nursing_available_days env st form < form.qty "nursing_care_charge") :
    process_charge_field env st form "nursing_care_charge" =
      make_charge_item env "nursing_care_charge"
        (nursing_available_days env st form) := by
  simp only [process_charge_field]
  rw [if_pos (by omega), if_neg (by simp [nursing_not_in_sets.1]),
    if_neg (by simp [nursing_not_in_sets.2]),
    if_pos (by simp [hadm]), if_pos havlt, if_neg (by omega)]

/-- A field with no duplicate cause contributes no duplicate entry. -/
lemma process_field_no_dup {env : Env} {st : BillingState} {form : BillingForm}
    {f : String}
    (hnoff : form.qty f > 0 → ¬ is_duplicate_offender st f)
    (hnurse : form.qty f > 0 → f = "nursing_care_charge" →
      form.admission_id ≠ "" → 0 < nursing_available_days env st form) :
    field_outcome_dup (process_charge_field env st form f) = none := by
  by_cases hq : form.qty f > 0
  · simp only [process_charge_field]
    rw [if_pos hq]
    have hnoff' := hnoff hq
    rw [if_neg (fun hcond => hnoff' (Or.inl (by simpa using hcond)))]
    rw [if_neg (fun hcond => hnoff' (Or.inr (by simpa using hcond)))]
    by_cases hn : (f == "nursing_care_charge" && form.admission_id != "") = true
    · rw [if_pos hn]
      have hfn : f = "nursing_care_charge" := by
        have := hn
        simp only [Bool.and_eq_true, beq_iff_eq] at this
        exact this.1
      have hadm : form.admission_id ≠ "" := by
        have := hn
        simp only [Bool.and_eq_true, bne_iff_ne, ne_eq] at this
        exact this.2
      have hav := hnurse hq hfn hadm
      split
      · rw [if_neg (by omega)]
        cases hmc : env.charge_master_dict f <;>
          simp [make_charge_item, hmc, field_outcome_dup]
      · cases hmc : env.charge_master_dict f <;>
          simp [make_charge_item, hmc, field_outcome_dup]
    · rw [if_neg hn]
      cases hmc : env.charge_master_dict f <;>
        simp [make_charge_item, hmc, field_outcome_dup]
  · simp only [process_charge_field]
    rw [if_neg hq]
    rfl

/-- The duplicate list is empty when no selected field has a duplicate cause. -/
lemma duplicates_nil {env : Env} {s : Store} {form : BillingForm}
    (hnoff : ∀ f ∈ CHARGE_FIELD_ORDER, form.qty f > 0 →
      ¬ is_duplicate_offender (collect_admission_billing_state s form.admission_id) f)
    (hnurse : form.qty "nursing_care_charge" > 0 → form.admission_id ≠ "" →
      0 < nursing_available_days env
        (collect_admission_billing_state s form.admission_id) form) :
    (current_processed env s form).1 = [] := by
  rw [current_processed, process_form_charges_eq]
  simp only
  rw [List.filterMap_eq_nil_iff]
  intro f hf
  exact process_field_no_dup (hnoff f hf)
    (fun hq hfn hadm => hnurse (hfn ▸ hq) hadm)

/-- When all checks pass on a save action, the save persists. -/
lemma post_save_success {env : Env} {s : Store} {form : BillingForm}
    (hadm : form.admission_id ≠ "") (hconf : final_bill_conflict s form = none)
    (hdup : (current_processed env s form).1 = [])
    (hne : final_charges env s form ≠ []) (hsave : form.action = "save") :
    index_billing_post env s form = save_result env s form := by
  unfold index_billing_post
  rw [if_neg hadm, hconf]
  rw [if_neg (by simp [hdup]), if_neg hne, if_pos (by simp [hsave])]

/-- The line item the loop appends for a nursing-care selection priced at
`amt` with effective quantity `q` (the shape of `charges.append({...})`). -/
def nursing_item (q : ℤ) (amt : ℚ) : LineItem :=
  { charge_code := "nursing_care_charge"
    charge_name := pyTitle "nursing_care_charge"
    quantity := (q : ℚ)
    unit_price := amt
    total := amt * (q : ℚ) }

/-- C2: for a save or generate selecting nursing care with quantity > 0
(and no preempting final-bill rejection): when `available_days ≤ 0` the
whole request is rejected, with the duplicate-listing message containing
the nursing message that names the admission's day count; when
`0 < available_days < requested quantity` the field is never turned into
a rejection but silently clamped to exactly `available_days`, and — absent
any other duplicate cause — a save proceeds and persists the clamped
quantity. -/
theorem C2_nursing_clamp :
    ∀ (env : Env) (s : Store) (form : BillingForm),
      form.admission_id ≠ "" →
      final_bill_conflict s form = none →
      form.qty "nursing_care_charge" > 0 →
      (nursing_available_days env
          (collect_admission_billing_state s form.admission_id) form ≤ 0 →
        index_billing_post env s form =
          (s, .error (duplicate_charges_msg (current_processed env s form).1)) ∧
        nursing_exhausted_msg (nursing_admission_days env form)
          ∈ (current_processed env s form).1) ∧
      (0 < nursing_available_days env
          (collect_admission_billing_state s form.admission_id) form →
       nursing_available_days env
          (collect_admission_billing_state s form.admission_id) form
          < form.qty "nursing_care_charge" →
       ∀ amt, env.charge_master_dict "nursing_care_charge" = some amt →
        process_charge_field env
            (collect_admission_billing_state s form.admission_id) form
            "nursing_care_charge" =
          .item (nursing_item (nursing_available_days env
            (collect_admission_billing_state s form.admission_id) form) amt) ∧
        ((∀ f ∈ CHARGE_FIELD_ORDER, form.qty f > 0 →
            ¬ is_duplicate_offender
              (collect_admission_billing_state s form.admission_id) f) →
         form.action = "save" →
          index_billing_post env s form = save_result env s form ∧
          nursing_item (nursing_available_days env
              (collect_admission_billing_state s form.admission_id) form) amt
            ∈ (saved_entry env s form).parsed_charges)) := by
  intro env s form hadm hconf hq
  set st := collect_admission_billing_state s form.admission_id with hst
  constructor
  · intro hav
    have hdup : nursing_exhausted_msg (nursing_admission_days env form)
        ∈ (current_processed env s form).1 := by
      rw [current_processed, process_form_charges_eq]
      exact List.mem_filterMap.mpr ⟨"nursing_care_charge", by decide, by
        rw [← hst, process_field_nursing_exhausted hadm hq hav]; rfl⟩
    exact ⟨post_duplicates_error hadm hconf
      (fun hnil => by simp [hnil] at hdup), hdup⟩
  · intro hav0 havlt amt hamt
    have hfield : process_charge_field env st form "nursing_care_charge" =
        .item (nursing_item (nursing_available_days env st form) amt) := by
      rw [process_field_nursing_clamped hadm hav0 havlt, make_charge_item, hamt]
      rfl
    refine ⟨hfield, ?_⟩
    intro hnoff hsave
    have hitem : nursing_item (nursing_available_days env st form) amt
        ∈ (current_processed env s form).2 := by
      rw [current_processed, process_form_charges_eq]
      exact List.mem_filterMap.mpr ⟨"nursing_care_charge", by decide, by
        rw [← hst, hfield]; rfl⟩
    have hdupnil : (current_processed env s form).1 =
        [] := duplicates_nil hnoff (fun _ _ => hav0)
    have hfc : final_charges env s form = (current_processed env s form).2 := by
      rw [final_charges, if_neg (by simp [hsave])]
    have hne : final_charges env s form ≠ [] := by
      rw [hfc]; intro hnil; simp [hnil] at hitem
    refine ⟨post_save_success hadm hconf hdupnil hne hsave, ?_⟩
    show _ ∈ (saved_entry env s form).parsed_charges
    rw [saved_entry]
    simpa [hfc] using hitem

/-- A store with no history at all. -/
def wStoreEmpty : Store := { charge_entries := [], bills := [] }

/-- A save requesting five nursing-care days on a two-day admission. -/
def wNurseForm : BillingForm :=
  { action := "save", patient_id := "1", patient_name := "P",
    admission_id := "1", billing_type := "IPD",
    qty := fun f => if f == "nursing_care_charge" then 5 else 0,
    discount := 0, tax := 0 }

/-- Witness for C2: the five requested days are clamped to the two
available ones and the save persists the clamped item. -/
theorem C2_witness :
    index_billing_post wEnv wStoreEmpty wNurseForm =
      save_result wEnv wStoreEmpty wNurseForm ∧
    nursing_item (nursing_available_days wEnv
        (collect_admission_billing_state wStoreEmpty wNurseForm.admission_id)
        wNurseForm) 100
      ∈ (saved_entry wEnv wStoreEmpty wNurseForm).parsed_charges :=
  ((C2_nursing_clamp wEnv wStoreEmpty wNurseForm (by decide) rfl (by decide)).2
    (by decide) (by decide) 100 rfl).2 (by decide) rfl

/-! ## Totals invariant -/

/-- C7: every persisted totals pair is exact: for a generated Bill, a
saved ChargeEntry, a `delete_charge` edit and an `update_bill` edit, the
stored `subtotal` is the sum of the stored line items' `total` fields and
the stored `total_amount` is `subtotal − discount + tax`. -/
theorem C7_totals_exact :
    (∀ (env : Env) (s : Store) (form : BillingForm) (s' : Store) (nb : Billing),
      index_billing_post env s form = (s', .generated nb) →
      ∃ items, nb.charges_json = some items ∧
        nb.subtotal = (items.map (fun c => c.total)).sum ∧
        nb.total_amount = nb.subtotal - nb.discount + nb.tax) ∧
    (∀ (env : Env) (s : Store) (form : BillingForm) (s' : Store)
        (e : AdmissionCharge),
      index_billing_post env s form = (s', .saved e) →
      e.subtotal = (e.parsed_charges.map (fun c => c.total)).sum ∧
      e.total_amount = e.subtotal - e.discount + e.tax) ∧
    (∀ (bill : Billing) (idx : ℤ) (bill' : Billing),
      delete_charge_action bill idx = some bill' →
      ∃ items, bill'.charges_json = some items ∧
        bill'.subtotal = (items.map (fun c => c.total)).sum ∧
        bill'.total_amount = bill'.subtotal - bill'.discount + bill'.tax) ∧
    (∀ (bill : Billing) (qty_form : String → Option ℚ)
        (discount_tax : Option (ℚ × ℚ)),
      ∃ items, (update_bill_action bill qty_form discount_tax).charges_json
          = some items ∧
        (update_bill_action bill qty_form discount_tax).subtotal
          = (items.map (fun c => c.total)).sum ∧
        (update_bill_action bill qty_form discount_tax).total_amount
          = (update_bill_action bill qty_form discount_tax).subtotal
            - (update_bill_action bill qty_form discount_tax).discount
            + (update_bill_action bill qty_form discount_tax).tax) := by
  refine ⟨?_, ?_, ?_, ?_⟩
  · intro env s form s' nb h
    obtain ⟨_, _, _, _, _, hnb, _⟩ := generated_inversion h
    subst hnb
    exact ⟨final_charges env s form, rfl, rfl, rfl⟩
  · intro env s form s' e h
    obtain ⟨_, _, _, _, _, he, _⟩ := saved_inversion h
    subst he
    exact ⟨rfl, rfl⟩
  · intro bill idx bill' h
    rw [delete_charge_action] at h
    split at h
    · cases h
      exact ⟨_, rfl, rfl, rfl⟩
    · cases h
  · intro bill qty_form discount_tax
    exact ⟨_, rfl, rfl, rfl⟩

/-- A generate request selecting one dressing with discount 3 and tax 1. -/
def wGenPendForm : BillingForm :=
  { action := "generate", patient_id := "1", patient_name := "P",
    admission_id := "1", billing_type := "IPD",
    qty := fun f => if f == "dressing" then 1 else 0, discount := 3, tax := 1 }

/-- Witness for C7: concrete save, generate, and both edit actions. -/
theorem C7_witness :
    ((saved_entry wEnv wStoreEmpty wNurseForm).subtotal =
      ((saved_entry wEnv wStoreEmpty wNurseForm).parsed_charges.map
        (fun c => c.total)).sum ∧
     (saved_entry wEnv wStoreEmpty wNurseForm).total_amount =
      (saved_entry wEnv wStoreEmpty wNurseForm).subtotal
        - (saved_entry wEnv wStoreEmpty wNurseForm).discount
        + (saved_entry wEnv wStoreEmpty wNurseForm).tax) ∧
    (∃ items, (generated_bill wEnv wStoreEmpty wGenPendForm).charges_json
        = some items ∧
      (generated_bill wEnv wStoreEmpty wGenPendForm).subtotal
        = (items.map (fun c => c.total)).sum ∧
      (generated_bill wEnv wStoreEmpty wGenPendForm).total_amount
        = (generated_bill wEnv wStoreEmpty wGenPendForm).subtotal
          - (generated_bill wEnv wStoreEmpty wGenPendForm).discount
          + (generated_bill wEnv wStoreEmpty wGenPendForm).tax) ∧
    (∃ items, ∃ bill', delete_charge_action wFinalBill 0 = some bill' ∧
      bill'.charges_json = some items ∧
      bill'.subtotal = (items.map (fun c => c.total)).sum ∧
      bill'.total_amount = bill'.subtotal - bill'.discount + bill'.tax) ∧
    (∃ items,
      (update_bill_action wFinalBill (fun _ => some 3) none).charges_json
        = some items ∧
      (update_bill_action wFinalBill (fun _ => some 3) none).subtotal
        = (items.map (fun c => c.total)).sum ∧
      (update_bill_action wFinalBill (fun _ => some 3) none).total_amount
        = (update_bill_action wFinalBill (fun _ => some 3) none).subtotal
          - (update_bill_action wFinalBill (fun _ => some 3) none).discount
          + (update_bill_action wFinalBill (fun _ => some 3) none).tax) := by
  refine ⟨?_, ?_, ?_, ?_⟩
  · exact C7_totals_exact.2.1 wEnv wStoreEmpty wNurseForm _ _ rfl
  · exact C7_totals_exact.1 wEnv wStoreEmpty wGenPendForm _ _ rfl
  · obtain ⟨items, h1, h2, h3⟩ := C7_totals_exact.2.2.1 wFinalBill 0 _ rfl
    exact ⟨items, _, rfl, h1, h2, h3⟩
  · exact C7_totals_exact.2.2.2 wFinalBill (fun _ => some 3) none

/-! ## Empty-selection generate -/

/-- A non-positive quantity skips the field entirely. -/
lemma process_field_skip {env : Env} {st : BillingState} {form : BillingForm}
    {f : String} (hq : ¬ form.qty f > 0) :
    process_charge_field env st form f = .skipped := by
  simp only [process_charge_field]
  rw [if_neg hq]

/-- A request selecting nothing contributes no duplicates and no items. -/
lemma current_processed_zero {env : Env} {s : Store} {form : BillingForm}
    (h : ∀ f, ¬ form.qty f > 0) :
    current_processed env s form = ([], []) := by
  rw [current_processed, process_form_charges_eq]
  refine Prod.ext ?_ ?_ <;> simp only <;>
    · rw [List.filterMap_eq_nil_iff]
      intro f _
      rw [process_field_skip (h f)]
      rfl

/-- Merging never empties a non-empty accumulator. -/
lemma merge_acc_ne_nil {acc : List LineItem} {L : List LineItem}
    (hacc : acc ≠ []) : merge_charge_list acc L ≠ [] := by
  induction L generalizing acc with
  | nil => simpa [merge_charge_list]
  | cons x L ih =>
    rw [merge_charge_list, List.foldl_cons]
    refine ih ?_
    rw [merge_charge_item]
    split
    · exact hacc
    · split
      · simpa using hacc
      · simp

/-- A source item with a non-empty code guarantees a non-empty merge. -/
lemma merge_ne_nil {L : List LineItem}
    (h : ∃ x ∈ L, x.charge_code ≠ "") : merge_charge_list [] L ≠ [] := by
  induction L with
  | nil => simp at h
  | cons x L ih =>
    rw [merge_charge_list, List.foldl_cons]
    by_cases hx : x.charge_code = ""
    · obtain ⟨y, hy, hyc⟩ := h
      rcases List.mem_cons.mp hy with rfl | hyL
      · exact absurd hx hyc
      · rw [merge_charge_item, if_pos hx]
        exact ih ⟨y, hyL, hyc⟩
    · rw [show merge_charge_item [] x = [x] by
        rw [merge_charge_item, if_neg hx]; rfl]
      exact merge_acc_ne_nil (by simp)

/-- When every check passes on a non-save action, the generate persists. -/
lemma post_generate_success {env : Env} {s : Store} {form : BillingForm}
    (hadm : form.admission_id ≠ "") (hconf : final_bill_conflict s form = none)
    (hdup : (current_processed env s form).1 = [])
    (hne : final_charges env s form ≠ []) (hnotsave : form.action ≠ "save") :
    index_billing_post env s form = generate_result env s form := by
  unfold index_billing_post
  rw [if_neg hadm, hconf]
  rw [if_neg (by simp [hdup]), if_neg hne, if_neg (by simp [hnotsave])]

/-- A store with both a Pending charge entry and a Final bill for `"1"`. -/
def wStoreFP : Store := { charge_entries := [wIcuEntry], bills := [wFinalBill] }

/-- A save request selecting nothing. -/
def wZeroSaveForm : BillingForm := { wGenForm with action := "save" }

/-- C10 counterexample: an admission with a Pending ChargeEntry holding a
non-empty line-item list AND an existing Final bill — the claim says the
zero-selection generate succeeds, but the code rejects it at the
duplicate-final check. -/
theorem C10_counterexample :
    wIcuEntry ∈ wStoreFP.charge_entries ∧ wIcuEntry.status = "Pending" ∧
    wIcuEntry.admission_id = wGenForm.admission_id ∧
    wIcuEntry.parsed_charges ≠ [] ∧ wGenForm.action = "generate" ∧
    index_billing_post wEnv wStoreFP wGenForm =
      (wStoreFP, .error (final_bill_exists_msg wFinalBill.bill_number)) := by
  refine ⟨by decide, rfl, rfl, by decide, rfl, rfl⟩

/-- C10 (amended): the at-least-one-charge rejection on generate applies
to the merged set: a generate with zero selected quantities succeeds
whenever no duplicate-final rejection fires and some Pending ChargeEntry
or legacy Draft bill contributes a line item with a non-empty
charge_code; a save with zero selected quantities is always rejected
with the at-least-one-charge error. -/
theorem C10_empty_selection :
    (∀ (env : Env) (s : Store) (form : BillingForm),
      form.action = "generate" → form.admission_id ≠ "" →
      (∀ f, ¬ form.qty f > 0) →
      final_bill_conflict s form = none →
      (∃ x ∈ generate_sources
          (collect_admission_billing_state s form.admission_id) [],
        x.charge_code ≠ "") →
      index_billing_post env s form = generate_result env s form ∧
      (index_billing_post env s form).2 = .generated (generated_bill env s form)) ∧
    (∀ (env : Env) (s : Store) (form : BillingForm),
      form.action = "save" → form.admission_id ≠ "" →
      (∀ f, ¬ form.qty f > 0) →
      index_billing_post env s form = (s, .error at_least_one_charge_msg)) := by
  constructor
  · intro env s form hact hadm hzero hconf hsrc
    have hcur := @current_processed_zero env s form hzero
    have hne : final_charges env s form ≠ [] := by
      rw [final_charges, if_pos (by simp [hact]), combined_charges, hcur]
      intro hnil
      exact merge_ne_nil hsrc (by simpa using hnil)
    have hpost := post_generate_success hadm hconf (by rw [hcur]) hne
      (by rw [hact]; decide)
    refine ⟨hpost, ?_⟩
    rw [hpost]
    rfl
  · intro env s form hact hadm hzero
    have hcur := @current_processed_zero env s form hzero
    have hconf : final_bill_conflict s form = none := by
      rw [final_bill_conflict, if_neg (by simp [hact])]
    unfold index_billing_post
    rw [if_neg hadm, hconf]
    rw [if_neg (by simp [hcur]), if_pos (by
      rw [final_charges, if_neg (by simp [hact]), hcur])]

/-- Witness for the amended C10: zero-selection generate on a store with
one Pending entry and no bills succeeds; zero-selection save errors. -/
theorem C10_witness :
    (index_billing_post wEnv wStoreIcu wGenForm =
      generate_result wEnv wStoreIcu wGenForm ∧
     (index_billing_post wEnv wStoreIcu wGenForm).2 =
      .generated (generated_bill wEnv wStoreIcu wGenForm)) ∧
    index_billing_post wEnv wStoreIcu wZeroSaveForm =
      (wStoreIcu, .error at_least_one_charge_msg) :=
  ⟨C10_empty_selection.1 wEnv wStoreIcu wGenForm rfl (by decide)
      (fun f => by simp [wGenForm]) rfl
      ⟨wIcuItem, by decide, by decide⟩,
   C10_empty_selection.2 wEnv wStoreIcu wZeroSaveForm rfl (by decide)
      (fun f => by simp [wZeroSaveForm, wGenForm])⟩

/-! ## Accumulator characterization -/

/-- Every line item the accumulator tracks for an admission: those of all
matching charge entries regardless of status, plus those of matching bills
whose status is Draft or Final. -/
def tracked_items (s : Store) (admission_id : String) : List LineItem :=
  ((s.charge_entries.filter
      (fun e => matches_admission e.admission_id admission_id)).map
    (fun e => e.parsed_charges)).flatten
  ++ ((s.bills.filter
      (fun b => matches_admission b.admission_id admission_id &&
        (b.bill_status == "Draft" || b.bill_status == "Final"))).map
    (fun b => b.charges_json.getD [])).flatten

lemma mem_setAdd {l : List String} {c c' : String} :
    c ∈ setAdd l c' ↔ c ∈ l ∨ c = c' := by
  rw [setAdd]
  split
  · rename_i h
    have h' : c' ∈ l := by simpa using h
    constructor
    · exact Or.inl
    · rintro (hc | rfl)
      · exact hc
      · exact h'
  · simp

lemma step_used_registration (t : Tracking) (x : LineItem) :
    (update_tracking_step t x).used_registration_charges =
      if registration_charges.contains x.charge_code ∧ x.quantity > 0 then
        setAdd t.used_registration_charges x.charge_code
      else t.used_registration_charges := by
  simp only [update_tracking_step]
  split <;> split <;> split <;> rfl

lemma step_used_room (t : Tracking) (x : LineItem) :
    (update_tracking_step t x).used_room_bed_charges =
      if room_bed_charges_set.contains x.charge_code ∧ x.quantity > 0 then
        setAdd t.used_room_bed_charges x.charge_code
      else t.used_room_bed_charges := by
  simp only [update_tracking_step]
  split <;> split <;> split <;> rfl

lemma step_nursing (t : Tracking) (x : LineItem) :
    (update_tracking_step t x).total_nursing_care_days =
      if x.charge_code = "nursing_care_charge" ∧ x.quantity > 0 then
        t.total_nursing_care_days + x.quantity
      else t.total_nursing_care_days := by
  simp only [update_tracking_step]
  split <;> split <;> split <;> rfl

lemma mem_used_reg_update (c : String) :
    ∀ (L : List LineItem) (t : Tracking),
      c ∈ (update_tracking t L).used_registration_charges ↔
        c ∈ t.used_registration_charges ∨
          (c ∈ registration_charges ∧
            ∃ x ∈ L, x.charge_code = c ∧ x.quantity > 0) := by
  intro L
  induction L with
  | nil => simp [update_tracking]
  | cons x L ih =>
    intro t
    rw [show update_tracking t (x :: L)
        = update_tracking (update_tracking_step t x) L from rfl, ih,
      step_used_registration]
    by_cases hc : registration_charges.contains x.charge_code ∧ x.quantity > 0
    · rw [if_pos hc, mem_setAdd]
      have hxreg : x.charge_code ∈ registration_charges := by
        simpa using hc.1
      constructor
      · rintro ((h | rfl) | ⟨hcreg, y, hy, hyc, hyq⟩)
        · exact Or.inl h
        · exact Or.inr ⟨hxreg, x, List.mem_cons_self _ _, rfl, hc.2⟩
        · exact Or.inr ⟨hcreg, y, List.mem_cons_of_mem _ hy, hyc, hyq⟩
      · rintro (h | ⟨hcreg, y, hy, hyc, hyq⟩)
        · exact Or.inl (Or.inl h)
        · rcases List.mem_cons.mp hy with rfl | hyL
          · exact Or.inl (Or.inr hyc.symm)
          · exact Or.inr ⟨hcreg, y, hyL, hyc, hyq⟩
    · rw [if_neg hc]
      constructor
      · rintro (h | ⟨hcreg, y, hy, hyc, hyq⟩)
        · exact Or.inl h
        · exact Or.inr ⟨hcreg, y, List.mem_cons_of_mem _ hy, hyc, hyq⟩
      · rintro (h | ⟨hcreg, y, hy, hyc, hyq⟩)
        · exact Or.inl h
        · rcases List.mem_cons.mp hy with rfl | hyL
          · exact absurd ⟨by simpa [hyc], hyq⟩ hc
          · exact Or.inr ⟨hcreg, y, hyL, hyc, hyq⟩

lemma mem_used_room_update (c : String) :
    ∀ (L : List LineItem) (t : Tracking),
      c ∈ (update_tracking t L).used_room_bed_charges ↔
        c ∈ t.used_room_bed_charges ∨
          (c ∈ room_bed_charges_set ∧
            ∃ x ∈ L, x.charge_code = c ∧ x.quantity > 0) := by
  intro L
  induction L with
  | nil => simp [update_tracking]
  | cons x L ih =>
    intro t
    rw [show update_tracking t (x :: L)
        = update_tracking (update_tracking_step t x) L from rfl, ih,
      step_used_room]
    by_cases hc : room_bed_charges_set.contains x.charge_code ∧ x.quantity > 0
    · rw [if_pos hc, mem_setAdd]
      have hxroom : x.charge_code ∈ room_bed_charges_set := by
        simpa using hc.1
      constructor
      · rintro ((h | rfl) | ⟨hcrm, y, hy, hyc, hyq⟩)
        · exact Or.inl h
        · exact Or.inr ⟨hxroom, x, List.mem_cons_self _ _, rfl, hc.2⟩
        · exact Or.inr ⟨hcrm, y, List.mem_cons_of_mem _ hy, hyc, hyq⟩
      · rintro (h | ⟨hcrm, y, hy, hyc, hyq⟩)
        · exact Or.inl (Or.inl h)
        · rcases List.mem_cons.mp hy with rfl | hyL
          · exact Or.inl (Or.inr hyc.symm)
          · exact Or.inr ⟨hcrm, y, hyL, hyc, hyq⟩
    · rw [if_neg hc]
      constructor
      · rintro (h | ⟨hcrm, y, hy, hyc, hyq⟩)
        · exact Or.inl h
        · exact Or.inr ⟨hcrm, y, List.mem_cons_of_mem _ hy, hyc, hyq⟩
      · rintro (h | ⟨hcrm, y, hy, hyc, hyq⟩)
        · exact Or.inl h
        · rcases List.mem_cons.mp hy with rfl | hyL
          · exact absurd ⟨by simpa [hyc], hyq⟩ hc
          · exact Or.inr ⟨hcrm, y, hyL, hyc, hyq⟩

lemma nursing_total_update :
    ∀ (L : List LineItem) (t : Tracking),
      (update_tracking t L).total_nursing_care_days =
        t.total_nursing_care_days +
          ((L.filter (fun x => x.charge_code == "nursing_care_charge" &&
              decide (x.quantity > 0))).map (fun x => x.quantity)).sum := by
  intro L
  induction L with
  | nil => simp [update_tracking]
  | cons x L ih =>
    intro t
    rw [show update_tracking t (x :: L)
        = update_tracking (update_tracking_step t x) L from rfl, ih,
      step_nursing, List.filter_cons]
    by_cases hc : x.charge_code = "nursing_care_charge" ∧ x.quantity > 0
    · rw [if_pos hc, if_pos (by simp [hc.1, hc.2])]
      simp [add_assoc]
    · rw [if_neg hc, if_neg (by
        simp only [Bool.and_eq_true, beq_iff_eq, decide_eq_true_eq]
        exact hc)]

lemma update_tracking_append (t : Tracking) (a b : List LineItem) :
    update_tracking t (a ++ b) = update_tracking (update_tracking t a) b := by
  simp [update_tracking, List.foldl_append]

lemma fold_entries_eq :
    ∀ (es : List AdmissionCharge) (t : Tracking),
      es.foldl (fun t e => update_tracking t e.parsed_charges) t =
        update_tracking t ((es.map (fun e => e.parsed_charges)).flatten) := by
  intro es
  induction es with
  | nil => intro t; rfl
  | cons e es ih =>
    intro t
    rw [List.foldl_cons, ih, List.map_cons, List.flatten_cons,
      update_tracking_append]

lemma fold_bills_eq :
    ∀ (bs : List Billing) (t : Tracking),
      bs.foldl
        (fun t b =>
          if b.bill_status == "Draft" || b.bill_status == "Final" then
            update_tracking t (b.charges_json.getD [])
          else t) t =
        update_tracking t
          (((bs.filter (fun b =>
              b.bill_status == "Draft" || b.bill_status == "Final")).map
            (fun b => b.charges_json.getD [])).flatten) := by
  intro bs
  induction bs with
  | nil => intro t; rfl
  | cons b bs ih =>
    intro t
    rw [List.foldl_cons, List.filter_cons]
    by_cases hb : (b.bill_status == "Draft" || b.bill_status == "Final") = true
    · rw [if_pos hb, if_pos hb, ih, List.map_cons, List.flatten_cons,
        update_tracking_append]
    · rw [if_neg hb, if_neg hb, ih]

/-- The tracked-bill filters compose: Draft-or-Final among the non-merged
matching bills is exactly matching-and-Draft-or-Final. -/
lemma bill_filter_eq (s : Store) (adm : String) :
    ((s.bills.filter (fun b =>
        matches_admission b.admission_id adm && b.bill_status != "Merged")).filter
      (fun b => b.bill_status == "Draft" || b.bill_status == "Final")) =
    s.bills.filter (fun b => matches_admission b.admission_id adm &&
      (b.bill_status == "Draft" || b.bill_status == "Final")) := by
  rw [List.filter_filter]
  apply List.filter_congr
  intro b _
  by_cases hD : b.bill_status = "Draft"
  · simp [hD]
  · by_cases hF : b.bill_status = "Final"
    · simp [hF]
    · have h1 : (b.bill_status == "Draft") = false := by simpa using hD
      have h2 : (b.bill_status == "Final") = false := by simpa using hF
      simp [h1, h2]

/-- The accumulator's three trackers equal one `update_tracking` pass over
the tracked items. -/
lemma collect_tracking_eq (s : Store) (adm : String) :
    Tracking.mk
      (collect_admission_billing_state s adm).used_registration_charges
      (collect_admission_billing_state s adm).used_room_bed_charges
      (collect_admission_billing_state s adm).total_nursing_care_days
    = update_tracking ⟨[], [], 0⟩ (tracked_items s adm) := by
  show (collect_admission_billing_state s adm |> fun st =>
    Tracking.mk st.used_registration_charges st.used_room_bed_charges
      st.total_nursing_care_days) = _
  simp only [collect_admission_billing_state]
  rw [fold_entries_eq, fold_bills_eq, bill_filter_eq, tracked_items,
    update_tracking_append]

/-- C8 (amended): the usage sets and nursing total are computed over the
line items of every matching ChargeEntry regardless of status (Merged
included) and of every matching Bill whose `bill_status` is Draft or Final
(not every non-Merged status): a code is in the registration (room/bed)
used set iff it belongs to the fixed set and some tracked item carries it
with quantity > 0, and the nursing total is the sum of the quantities of
the tracked `nursing_care_charge` items with quantity > 0. -/
theorem C8_accumulator_characterization :
    ∀ (s : Store) (adm : String),
      (∀ c, c ∈ (collect_admission_billing_state s adm).used_registration_charges
        ↔ c ∈ registration_charges ∧
            ∃ x ∈ tracked_items s adm, x.charge_code = c ∧ x.quantity > 0) ∧
      (∀ c, c ∈ (collect_admission_billing_state s adm).used_room_bed_charges
        ↔ c ∈ room_bed_charges_set ∧
            ∃ x ∈ tracked_items s adm, x.charge_code = c ∧ x.quantity > 0) ∧
      (collect_admission_billing_state s adm).total_nursing_care_days =
        (((tracked_items s adm).filter
            (fun x => x.charge_code == "nursing_care_charge" &&
              decide (x.quantity > 0))).map (fun x => x.quantity)).sum := by
  intro s adm
  have h := collect_tracking_eq s adm
  refine ⟨fun c => ?_, fun c => ?_, ?_⟩
  · have hp := congrArg Tracking.used_registration_charges h
    simp only at hp
    rw [hp, mem_used_reg_update]
    simp
  · have hp := congrArg Tracking.used_room_bed_charges h
    simp only at hp
    rw [hp, mem_used_room_update]
    simp
  · have hp := congrArg Tracking.total_nursing_care_days h
    simp only at hp
    rw [hp, nursing_total_update]
    simp

/-- A registration-fee line item. -/
def wRegItem : LineItem :=
  { charge_code := "registration_fee", charge_name := "Registration Fee",
    quantity := 1, unit_price := 50, total := 50 }

/-- A bill for admission `"1"` whose status is neither Draft, Final nor
Merged (the dataclass default is the empty string). -/
def wOddBill : Billing :=
  { wFinalBill with
    bill_id := 2
    bill_number := "BILL000002"
    charges_json := some [wRegItem]
    bill_status := "" }

/-- A store holding only that oddly-statused bill. -/
def wStoreOdd : Store := { charge_entries := [], bills := [wOddBill] }

/-- C8 counterexample: a non-Merged bill (status `""`) carrying a
registration charge with quantity 1 — the claim says its code must be
marked used, but the accumulator tracks only Draft and Final bills, so
the used registration set stays empty. -/
theorem C8_counterexample :
    wOddBill ∈ wStoreOdd.bills ∧ wOddBill.admission_id = "1" ∧
    wOddBill.bill_status ≠ "Merged" ∧
    wOddBill.charges_json = some [wRegItem] ∧
    wRegItem.charge_code ∈ registration_charges ∧ wRegItem.quantity > 0 ∧
    (collect_admission_billing_state wStoreOdd "1").used_registration_charges
      = [] := by
  exact ⟨by decide, rfl, by decide, rfl, by decide, by decide, rfl⟩

/-! ## Merge characterization -/

/-- Sum of the quantities a code carries across a source list. -/
def sum_quantity (L : List LineItem) (c : String) : ℚ :=
  ((L.filter (fun x => x.charge_code == c)).map (fun x => x.quantity)).sum

/-- Sum of the totals a code carries across a source list. -/
def sum_total (L : List LineItem) (c : String) : ℚ :=
  ((L.filter (fun x => x.charge_code == c)).map (fun x => x.total)).sum

lemma find_by_code_cons_pos {x : LineItem} {L : List LineItem} {c : String}
    (h : (x.charge_code == c) = true) :
    find_by_code (x :: L) c = some x := by
  rw [find_by_code, List.find?_cons, h]

lemma find_by_code_cons_neg {x : LineItem} {L : List LineItem} {c : String}
    (h : (x.charge_code == c) = false) :
    find_by_code (x :: L) c = find_by_code L c := by
  rw [find_by_code, List.find?_cons, h]; rfl

lemma find_by_code_append (L1 L2 : List LineItem) (c : String) :
    find_by_code (L1 ++ L2) c = (find_by_code L1 c).or (find_by_code L2 c) := by
  simp [find_by_code, List.find?_append]

lemma bump_item_bump_item (q t q' t' : ℚ) (e : LineItem) :
    bump_item q t (bump_item q' t' e) = bump_item (q' + q) (t' + t) e := by
  simp [bump_item, add_assoc]

lemma find_by_code_map_bump_ne {cc c : String} {q t : ℚ} (h : cc ≠ c) :
    ∀ {R : List LineItem},
    find_by_code (R.map (fun e =>
      if e.charge_code == cc then bump_item q t e else e)) c =
      find_by_code R c := by
  intro R
  induction R with
  | nil => rfl
  | cons r R ih =>
    rw [List.map_cons]
    by_cases hrc : (r.charge_code == cc) = true
    · rw [if_pos hrc]
      have hrceq : r.charge_code = cc := by simpa using hrc
      have h1 : ((bump_item q t r).charge_code == c) = false := by
        simp [bump_item, hrceq, h]
      have h2 : (r.charge_code == c) = false := by
        simp [hrceq]; exact h
      rw [find_by_code_cons_neg h1, find_by_code_cons_neg h2, ih]
    · rw [if_neg hrc]
      by_cases hcc : (r.charge_code == c) = true
      · rw [find_by_code_cons_pos hcc, find_by_code_cons_pos hcc]
      · rw [find_by_code_cons_neg (by simpa using hcc),
          find_by_code_cons_neg (by simpa using hcc), ih]

lemma find_by_code_map_bump_eq {c : String} {q t : ℚ} :
    ∀ {R : List LineItem} {r : LineItem}, find_by_code R c = some r →
    find_by_code (R.map (fun e =>
      if e.charge_code == c then bump_item q t e else e)) c =
      some (bump_item q t r) := by
  intro R
  induction R with
  | nil => intro r h; simp [find_by_code] at h
  | cons r0 R ih =>
    intro r h
    rw [List.map_cons]
    by_cases hrc : (r0.charge_code == c) = true
    · rw [find_by_code_cons_pos hrc] at h
      cases h
      rw [if_pos hrc]
      exact find_by_code_cons_pos (by simpa [bump_item] using hrc)
    · have hrc' : (r0.charge_code == c) = false := by simpa using hrc
      rw [find_by_code_cons_neg hrc'] at h
      rw [if_neg hrc, find_by_code_cons_neg hrc']
      exact ih h

/-- What `_merge_charge_list` holds for a code: the accumulator's entry
bumped by the source sums, or the first source occurrence carrying the
full sums. -/
lemma find_merge (c : String) (hc : c ≠ "") :
    ∀ (L : List LineItem) (acc : List LineItem),
      find_by_code (merge_charge_list acc L) c =
        match find_by_code acc c with
        | some r => some (bump_item (sum_quantity L c) (sum_total L c) r)
        | none =>
          match find_by_code L c with
          | some f => some { f with quantity := sum_quantity L c,
                                    total := sum_total L c }
          | none => none := by
  intro L
  induction L with
  | nil =>
    intro acc
    show find_by_code acc c = _
    cases h : find_by_code acc c with
    | none => rfl
    | some r => simp [bump_item, sum_quantity, sum_total]
  | cons x L ih =>
    intro acc
    rw [show merge_charge_list acc (x :: L)
        = merge_charge_list (merge_charge_item acc x) L from rfl, ih]
    by_cases hx0 : x.charge_code = ""
    · have hxc : (x.charge_code == c) = false := by
        simp [hx0]; intro h; exact absurd h.symm hc
      rw [merge_charge_item, if_pos hx0]
      have hsq : sum_quantity (x :: L) c = sum_quantity L c := by
        simp [sum_quantity, List.filter_cons, hxc]
      have hst : sum_total (x :: L) c = sum_total L c := by
        simp [sum_total, List.filter_cons, hxc]
      rw [hsq, hst, find_by_code_cons_neg hxc]
    · rw [merge_charge_item, if_neg hx0]
      by_cases hxceq : x.charge_code = c
      · subst hxceq
        have hbeq : (x.charge_code == x.charge_code) = true := by simp
        have hsq : sum_quantity (x :: L) x.charge_code
            = x.quantity + sum_quantity L x.charge_code := by
          simp [sum_quantity, List.filter_cons, hbeq]
        have hst : sum_total (x :: L) x.charge_code
            = x.total + sum_total L x.charge_code := by
          simp [sum_total, List.filter_cons, hbeq]
        cases hacc : find_by_code acc x.charge_code with
        | some r =>
          rw [find_by_code_map_bump_eq hacc]
          simp only [hacc, hsq, hst, bump_item_bump_item]
        | none =>
          have hfind : find_by_code (acc ++ [x]) x.charge_code = some x := by
            rw [find_by_code_append, hacc, find_by_code_cons_pos hbeq]
            rfl
          rw [hfind, find_by_code_cons_pos hbeq]
          simp only [hacc, hsq, hst]
          simp [bump_item]
      · have hbeq : (x.charge_code == c) = false := by simpa using hxceq
        have hsq : sum_quantity (x :: L) c = sum_quantity L c := by
          simp [sum_quantity, List.filter_cons, hbeq]
        have hst : sum_total (x :: L) c = sum_total L c := by
          simp [sum_total, List.filter_cons, hbeq]
        rw [hsq, hst, find_by_code_cons_neg hbeq]
        cases hacc : find_by_code acc x.charge_code with
        | some r =>
          simp only [hacc]
          rw [find_by_code_map_bump_ne hxceq]
        | none =>
          simp only [hacc]
          rw [show find_by_code (acc ++ [x]) c = find_by_code acc c by
            rw [find_by_code_append,
              show find_by_code [x] c = none from find_by_code_cons_neg hbeq]
            cases find_by_code acc c <;> rfl]

/-- Bumping or leaving an element preserves its code. -/
lemma codes_map_bump (R : List LineItem) (cc : String) (q t : ℚ) :
    (R.map (fun e => if e.charge_code == cc then bump_item q t e else e)).map
        (fun x => x.charge_code) =
      R.map (fun x => x.charge_code) := by
  rw [List.map_map]
  apply List.map_congr_left
  intro e _
  show (if e.charge_code == cc then bump_item q t e else e).charge_code
    = e.charge_code
  split <;> rfl

/-- Merged lists keep duplicate-free, non-empty codes. -/
lemma merge_codes_nodup :
    ∀ (L acc : List LineItem),
      ((acc.map (fun x => x.charge_code)).Nodup ∧
        ∀ r ∈ acc, r.charge_code ≠ "") →
      ((merge_charge_list acc L).map (fun x => x.charge_code)).Nodup ∧
        ∀ r ∈ merge_charge_list acc L, r.charge_code ≠ "" := by
  intro L
  induction L with
  | nil => intro acc h; exact h
  | cons x L ih =>
    intro acc h
    rw [show merge_charge_list acc (x :: L)
        = merge_charge_list (merge_charge_item acc x) L from rfl]
    apply ih
    rw [merge_charge_item]
    split
    · exact h
    · cases hacc : find_by_code acc x.charge_code with
      | some r =>
        simp only [hacc]
        constructor
        · rw [codes_map_bump]
          exact h.1
        · intro r' hr'
          obtain ⟨e, he, rfl⟩ := List.mem_map.mp hr'
          by_cases hce : (e.charge_code == x.charge_code) = true <;>
            simp [hce, bump_item, h.2 e he]
      | none =>
        simp only [hacc]
        have hx0 : x.charge_code ≠ "" := by assumption
        constructor
        · rw [List.map_append]
          simp only [List.map_cons, List.map_nil]
          rw [List.nodup_append]
          refine ⟨h.1, by simp, ?_⟩
          intro a ha
          simp only [List.mem_singleton]
          obtain ⟨e, he, rfl⟩ := List.mem_map.mp ha
          intro heq
          have := List.find?_eq_none.mp hacc e he
          simp [heq] at this
        · intro r hr
          rcases List.mem_append.mp hr with hr | hr
          · exact h.2 r hr
          · rw [List.mem_singleton.mp hr]
            exact hx0

/-- With duplicate-free codes, the find witness is the only carrier. -/
lemma filter_eq_of_find {c : String} {r : LineItem} :
    ∀ {R : List LineItem}, ((R.map (fun x => x.charge_code)).Nodup) →
      find_by_code R c = some r →
      R.filter (fun x => x.charge_code == c) = [r] := by
  intro R
  induction R with
  | nil => intro _ h; simp [find_by_code] at h
  | cons y R ih =>
    intro hnd h
    rw [List.map_cons, List.nodup_cons] at hnd
    by_cases hyc : (y.charge_code == c) = true
    · have hyceq : y.charge_code = c := by simpa using hyc
      rw [find_by_code_cons_pos hyc] at h
      cases h
      have hrest : R.filter (fun x => x.charge_code == c) = [] := by
        rw [List.filter_eq_nil_iff]
        intro x hx hxbeq
        have hxc : x.charge_code = c := by simpa using hxbeq
        exact hnd.1 (by
          rw [hyceq, ← hxc]
          exact List.mem_map_of_mem _ hx)
      rw [List.filter_cons, if_pos hyc, hrest]
    · rw [find_by_code_cons_neg (by simpa using hyc)] at h
      rw [List.filter_cons, if_neg (by simpa using hyc)]
      exact ih hnd.2 h

/-- An all-integral source list has integral per-code quantity sums. -/
lemma sum_quantity_int {L : List LineItem} {c : String}
    (h : ∀ x ∈ L, ∃ n : ℤ, x.quantity = n) :
    ∃ n : ℤ, sum_quantity L c = n := by
  induction L with
  | nil => exact ⟨0, rfl⟩
  | cons x L ih =>
    obtain ⟨m, hm⟩ := ih (fun y hy => h y (List.mem_cons_of_mem _ hy))
    rw [sum_quantity, List.filter_cons]
    split
    · obtain ⟨n, hn⟩ := h x (List.mem_cons_self _ _)
      refine ⟨n + m, ?_⟩
      rw [List.map_cons, List.sum_cons, hn]
      rw [sum_quantity] at hm
      rw [hm]
      push_cast
      ring
    · exact ⟨m, hm⟩

/-- Integral quantities pass through the 1e-6 normalization untouched. -/
lemma normalize_quantity_int (n : ℤ) :
    normalize_quantity (n : ℚ) = (n : ℚ) := by
  have htr : ratTrunc (n : ℚ) = n := by
    rw [ratTrunc]
    split <;> simp
  rw [normalize_quantity, htr, if_pos (by norm_num)]

/-- Normalization commutes with per-code filtering. -/
lemma filter_map_normalize (R : List LineItem) (c : String) :
    (R.map normalize_item).filter (fun x => x.charge_code == c) =
      (R.filter (fun x => x.charge_code == c)).map normalize_item := by
  rw [List.filter_map]
  congr 1

/-- C4: a successful generate merges by charge_code: the persisted line
items have duplicate-free codes; for every code occurring in the sources
(pending entries, then legacy draft bills, then the current selection)
the single resulting item carries the sums of that code's quantities and
totals across the sources, with `charge_name` and `unit_price` taken from
the first source occurrence; and the bill's discount and tax are the sums
of the sources' discounts and taxes plus the current form's fields.
Stated for sources with integral quantities (every quantity this system
writes is an `int`). -/
theorem C4_generate_merges_by_code :
    ∀ (env : Env) (s : Store) (form : BillingForm) (s' : Store) (nb : Billing),
      index_billing_post env s form = (s', .generated nb) →
      form.action = "generate" →
      (∀ x ∈ generate_sources
          (collect_admission_billing_state s form.admission_id)
          (current_processed env s form).2, ∃ n : ℤ, x.quantity = n) →
      nb.discount = merged_discount
          (collect_admission_billing_state s form.admission_id)
          + form.discount ∧
      nb.tax = merged_tax (collect_admission_billing_state s form.admission_id)
          + form.tax ∧
      ∃ items, nb.charges_json = some items ∧
        (items.map (fun x => x.charge_code)).Nodup ∧
        (∀ c, c ≠ "" → ∀ f,
          find_by_code (generate_sources
            (collect_admission_billing_state s form.admission_id)
            (current_processed env s form).2) c = some f →
          items.filter (fun x => x.charge_code == c) =
            [{ f with
                quantity := sum_quantity (generate_sources
                  (collect_admission_billing_state s form.admission_id)
                  (current_processed env s form).2) c,
                total := sum_total (generate_sources
                  (collect_admission_billing_state s form.admission_id)
                  (current_processed env s form).2) c }]) := by
  intro env s form s' nb h hact hint
  obtain ⟨_, _, _, _, _, hnb, _⟩ := generated_inversion h
  subst hnb
  set st := collect_admission_billing_state s form.admission_id with hst
  set src := generate_sources st (current_processed env s form).2 with hsrc
  have hbeqact : (form.action == "generate") = true := by simp [hact]
  have hfc : final_charges env s form
      = (merge_charge_list [] src).map normalize_item := by
    rw [final_charges, if_pos hbeqact]
    rfl
  have hdisc : (generated_bill env s form).discount
      = merged_discount st + form.discount := by
    show final_discount env s form = _
    rw [final_discount, if_pos hbeqact]
  have htax : (generated_bill env s form).tax
      = merged_tax st + form.tax := by
    show final_tax env s form = _
    rw [final_tax, if_pos hbeqact]
  have hnodup := merge_codes_nodup src [] ⟨List.nodup_nil, by simp⟩
  refine ⟨hdisc, htax, final_charges env s form, rfl, ?_, ?_⟩
  · rw [hfc, List.map_map]
    have : ((fun x => x.charge_code) ∘ normalize_item)
        = (fun x : LineItem => x.charge_code) := rfl
    rw [this]
    exact hnodup.1
  · intro c hc f hf
    have hfind := find_merge c hc src []
    rw [show find_by_code [] c = none from rfl] at hfind
    rw [hf] at hfind
    simp only at hfind
    have hfilter := filter_eq_of_find hnodup.1 hfind
    rw [hfc, filter_map_normalize, hfilter]
    obtain ⟨n, hn⟩ := @sum_quantity_int src c hint
    rw [List.map_cons, List.map_nil]
    congr 1
    rw [show normalize_item
          { f with
            quantity := sum_quantity src c
            total := sum_total src c }
        = { f with
            quantity := normalize_quantity (sum_quantity src c)
            total := sum_total src c } from rfl]
    rw [hn, normalize_quantity_int, ← hn]

/-- A Pending entry with dressing, quantity 2, total 200 (discount 5, tax 2). -/
def wDressEntry : AdmissionCharge :=
  { charge_entry_id := 1, admission_id := "1", patient_id := "1",
    patient_name := "P", billing_type := "IPD", parsed_charges := [wLineItem],
    subtotal := 200, discount := 5, tax := 2, total_amount := 197,
    status := "Pending", created_at := "2024-01-01" }

/-- A store holding only that pending dressing entry. -/
def wStoreDress : Store := { charge_entries := [wDressEntry], bills := [] }

/-- Witness for C4: pending dressing qty 2 total 200 plus current dressing
qty 1 total 100 merge into one line with quantity 3 and total 300, and
discount and tax sum with the form's fields. -/
theorem C4_witness :
    (generated_bill wEnv wStoreDress wGenPendForm).discount
      = merged_discount (collect_admission_billing_state wStoreDress
          wGenPendForm.admission_id) + wGenPendForm.discount ∧
    (generated_bill wEnv wStoreDress wGenPendForm).tax
      = merged_tax (collect_admission_billing_state wStoreDress
          wGenPendForm.admission_id) + wGenPendForm.tax ∧
    (final_charges wEnv wStoreDress wGenPendForm).filter
        (fun x => x.charge_code == "dressing")
      = [{ wLineItem with quantity := 3, total := 300 }] := by
  have hsrc : generate_sources
      (collect_admission_billing_state wStoreDress wGenPendForm.admission_id)
      (current_processed wEnv wStoreDress wGenPendForm).2
    = [wLineItem,
       { charge_code := "dressing", charge_name := pyTitle "dressing",
         quantity := ((1 : ℤ) : ℚ), unit_price := 100,
         total := 100 * ((1 : ℤ) : ℚ) }] := rfl
  obtain ⟨hd, ht, items, hjson, hnd, hfilter⟩ :=
    C4_generate_merges_by_code wEnv wStoreDress wGenPendForm _ _ rfl rfl
      (by
        intro x hx
        rw [hsrc] at hx
        simp only [List.mem_cons, List.not_mem_nil, or_false] at hx
        rcases hx with rfl | rfl
        · exact ⟨2, by norm_num [wLineItem]⟩
        · exact ⟨1, by norm_num⟩)
  refine ⟨hd, ht, ?_⟩
  have hitems : final_charges wEnv wStoreDress wGenPendForm = items := by
    have h' := hjson
    rw [show (generated_bill wEnv wStoreDress wGenPendForm).charges_json
        = some (final_charges wEnv wStoreDress wGenPendForm) from rfl] at h'
    exact (Option.some.injEq _ _).mp h'
  have hsq : sum_quantity (generate_sources
      (collect_admission_billing_state wStoreDress wGenPendForm.admission_id)
      (current_processed wEnv wStoreDress wGenPendForm).2) "dressing" = 3 := by
    rw [hsrc]
    norm_num [sum_quantity, wLineItem]
  have hst : sum_total (generate_sources
      (collect_admission_billing_state wStoreDress wGenPendForm.admission_id)
      (current_processed wEnv wStoreDress wGenPendForm).2) "dressing" = 300 := by
    rw [hsrc]
    norm_num [sum_total, wLineItem]
  rw [hitems, hfilter "dressing" (by decide) wLineItem (by decide), hsq, hst]

/-! ## Frame conditions -/

lemma insertByDesc_perm {α : Type} (key : α → String) (x : α) :
    ∀ (l : List α), (insertByDesc key x l).Perm (x :: l) := by
  intro l
  induction l with
  | nil => simp [insertByDesc]
  | cons y ys ih =>
    rw [insertByDesc]
    split
    · exact ((ih.cons y).trans (List.Perm.swap x y ys)).symm.symm
    · exact List.Perm.refl _

/-- The stable sort permutes its input. -/
lemma sortByKeyDesc_perm {α : Type} (key : α → String) (l : List α) :
    (sortByKeyDesc key l).Perm l := by
  suffices h : ∀ (l acc : List α),
      (l.foldl (fun acc x => insertByDesc key x acc) acc).Perm (acc ++ l) by
    simpa [sortByKeyDesc] using h l []
  intro l
  induction l with
  | nil => simp
  | cons x xs ih =>
    intro acc
    rw [List.foldl_cons]
    refine (ih _).trans ?_
    refine ((insertByDesc_perm key x acc).append_right xs).trans ?_
    exact List.perm_middle.symm

/-- Every member is at most the running `foldr max`. -/
lemma le_foldr_max : ∀ (l : List ℕ) (x : ℕ), x ∈ l → x ≤ l.foldr max 0 := by
  intro l
  induction l with
  | nil => simp
  | cons y ys ih =>
    intro x hx
    rcases List.mem_cons.mp hx with rfl | hx
    · exact le_max_left _ _
    · exact le_trans (ih x hx) (le_max_right _ _)

/-- With duplicate-free ids, the first-match row update is the pointwise
update. -/
lemma update_bill_row_eq_map :
    ∀ {bs : List Billing} {b : Billing},
      ((bs.map (fun x => x.bill_id)).Nodup) →
      update_bill_row bs b =
        bs.map (fun x => if x.bill_id == b.bill_id then b else x) := by
  intro bs
  induction bs with
  | nil => intro b _; rfl
  | cons x xs ih =>
    intro b hnd
    rw [List.map_cons, List.nodup_cons] at hnd
    rw [update_bill_row, List.map_cons]
    by_cases hx : (x.bill_id == b.bill_id) = true
    · rw [if_pos hx, if_pos hx]
      congr 1
      have hbid : b.bill_id = x.bill_id := (beq_iff_eq.mp hx).symm
      have hpt : ∀ y ∈ xs, (if y.bill_id == b.bill_id then b else y) = y := by
        intro y hy
        rw [if_neg]
        intro hyb
        apply hnd.1
        rw [← show y.bill_id = x.bill_id from (beq_iff_eq.mp hyb).trans hbid]
        exact List.mem_map_of_mem _ hy
      exact ((List.map_congr_left hpt).trans (List.map_id' xs)).symm
    · rw [if_neg hx, if_neg hx, ih hnd.2]

lemma update_charge_row_eq_map :
    ∀ {es : List AdmissionCharge} {e : AdmissionCharge},
      ((es.map (fun x => x.charge_entry_id)).Nodup) →
      update_admission_charge_row es e =
        es.map (fun x => if x.charge_entry_id == e.charge_entry_id then e else x) := by
  intro es
  induction es with
  | nil => intro e _; rfl
  | cons x xs ih =>
    intro e hnd
    rw [List.map_cons, List.nodup_cons] at hnd
    rw [update_admission_charge_row, List.map_cons]
    by_cases hx : (x.charge_entry_id == e.charge_entry_id) = true
    · rw [if_pos hx, if_pos hx]
      congr 1
      have heid : e.charge_entry_id = x.charge_entry_id := (beq_iff_eq.mp hx).symm
      have hpt : ∀ y ∈ xs,
          (if y.charge_entry_id == e.charge_entry_id then e else y) = y := by
        intro y hy
        rw [if_neg]
        intro hye
        apply hnd.1
        rw [← show y.charge_entry_id = x.charge_entry_id from
          (beq_iff_eq.mp hye).trans heid]
        exact List.mem_map_of_mem _ hy
      exact ((List.map_congr_left hpt).trans (List.map_id' xs)).symm
    · rw [if_neg hx, if_neg hx, ih hnd.2]

lemma foldl_update_bills_eq :
    ∀ (ds : List Billing) (bs : List Billing),
      ((bs.map (fun x => x.bill_id)).Nodup) →
      ((ds.map (fun x => x.bill_id)).Nodup) →
      ds.foldl (fun acc d =>
          update_bill_row acc { d with bill_status := "Merged" }) bs
        = bs.map (fun x =>
            match ds.find? (fun d => d.bill_id == x.bill_id) with
            | some d => { d with bill_status := "Merged" }
            | none => x) := by
  intro ds
  induction ds with
  | nil =>
    intro bs _ _
    exact ((List.map_congr_left (fun x _ => rfl)).trans (List.map_id' bs)).symm
  | cons d ds ih =>
    intro bs hbs hds
    rw [List.map_cons, List.nodup_cons] at hds
    rw [List.foldl_cons, update_bill_row_eq_map hbs]
    have hids : ((bs.map (fun x =>
        if x.bill_id == ({ d with bill_status := "Merged" } : Billing).bill_id
        then { d with bill_status := "Merged" } else x)).map
          (fun x => x.bill_id)) = bs.map (fun x => x.bill_id) := by
      rw [List.map_map]
      apply List.map_congr_left
      intro x _
      show (if x.bill_id == d.bill_id then
        ({ d with bill_status := "Merged" } : Billing) else x).bill_id = x.bill_id
      by_cases hx : (x.bill_id == d.bill_id) = true
      · rw [if_pos hx]
        exact (beq_iff_eq.mp hx).symm
      · rw [if_neg hx]
    rw [ih _ (by rw [hids]; exact hbs) hds.2, List.map_map]
    apply List.map_congr_left
    intro x _
    show (match ds.find? (fun dd => dd.bill_id ==
        (if x.bill_id == d.bill_id then
          ({ d with bill_status := "Merged" } : Billing) else x).bill_id) with
      | some dd => { dd with bill_status := "Merged" }
      | none => (if x.bill_id == d.bill_id then
          ({ d with bill_status := "Merged" } : Billing) else x)) = _
    by_cases hdx : (x.bill_id == d.bill_id) = true
    · rw [if_pos hdx]
      have hxd : d.bill_id = x.bill_id := (beq_iff_eq.mp hdx).symm
      have hnone : ds.find? (fun dd => dd.bill_id == d.bill_id) = none := by
        rw [List.find?_eq_none]
        intro dd hdd hbeq
        exact hds.1 ((beq_iff_eq.mp hbeq) ▸ List.mem_map_of_mem _ hdd)
      show (match ds.find? (fun dd => dd.bill_id == d.bill_id) with
        | some dd => { dd with bill_status := "Merged" }
        | none => ({ d with bill_status := "Merged" } : Billing)) = _
      rw [hnone]
      show ({ d with bill_status := "Merged" } : Billing)
        = (match List.find? (fun dd => dd.bill_id == x.bill_id) (d :: ds) with
          | some dd => { dd with bill_status := "Merged" }
          | none => x)
      rw [List.find?_cons, show (d.bill_id == x.bill_id) = true by
        simp [hxd]]
    · rw [if_neg hdx]
      have hne : (d.bill_id == x.bill_id) = false := by
        simp only [beq_eq_false_iff_ne, ne_eq]
        intro he
        exact hdx (by simp [he])
      show (match ds.find? (fun dd => dd.bill_id == x.bill_id) with
        | some dd => { dd with bill_status := "Merged" }
        | none => x) = _
      rw [List.find?_cons, hne]

lemma foldl_update_entries_eq :
    ∀ (ps : List AdmissionCharge) (es : List AdmissionCharge),
      ((es.map (fun x => x.charge_entry_id)).Nodup) →
      ((ps.map (fun x => x.charge_entry_id)).Nodup) →
      ps.foldl (fun acc p =>
          update_admission_charge_row acc { p with status := "Merged" }) es
        = es.map (fun x =>
            match ps.find? (fun p => p.charge_entry_id == x.charge_entry_id) with
            | some p => { p with status := "Merged" }
            | none => x) := by
  intro ps
  induction ps with
  | nil =>
    intro es _ _
    exact ((List.map_congr_left (fun x _ => rfl)).trans (List.map_id' es)).symm
  | cons p ps ih =>
    intro es hes hps
    rw [List.map_cons, List.nodup_cons] at hps
    rw [List.foldl_cons, update_charge_row_eq_map hes]
    have hids : ((es.map (fun x =>
        if x.charge_entry_id ==
            ({ p with status := "Merged" } : AdmissionCharge).charge_entry_id
        then { p with status := "Merged" } else x)).map
          (fun x => x.charge_entry_id)) = es.map (fun x => x.charge_entry_id) := by
      rw [List.map_map]
      apply List.map_congr_left
      intro x _
      show (if x.charge_entry_id == p.charge_entry_id then
        ({ p with status := "Merged" } : AdmissionCharge) else x).charge_entry_id
        = x.charge_entry_id
      by_cases hx : (x.charge_entry_id == p.charge_entry_id) = true
      · rw [if_pos hx]
        exact (beq_iff_eq.mp hx).symm
      · rw [if_neg hx]
    rw [ih _ (by rw [hids]; exact hes) hps.2, List.map_map]
    apply List.map_congr_left
    intro x _
    by_cases hpx : (x.charge_entry_id == p.charge_entry_id) = true
    · have hxp : p.charge_entry_id = x.charge_entry_id := (beq_iff_eq.mp hpx).symm
      have hnone : ps.find?
          (fun pp => pp.charge_entry_id == p.charge_entry_id) = none := by
        rw [List.find?_eq_none]
        intro pp hpp hbeq
        exact hps.1 ((beq_iff_eq.mp hbeq) ▸ List.mem_map_of_mem _ hpp)
      show (match ps.find? (fun pp => pp.charge_entry_id ==
          (if x.charge_entry_id == p.charge_entry_id then
            ({ p with status := "Merged" } : AdmissionCharge) else x).charge_entry_id) with
        | some pp => { pp with status := "Merged" }
        | none => (if x.charge_entry_id == p.charge_entry_id then
            ({ p with status := "Merged" } : AdmissionCharge) else x)) = _
      rw [if_pos hpx]
      show (match ps.find? (fun pp => pp.charge_entry_id == p.charge_entry_id) with
        | some pp => { pp with status := "Merged" }
        | none => ({ p with status := "Merged" } : AdmissionCharge)) = _
      rw [hnone]
      show ({ p with status := "Merged" } : AdmissionCharge)
        = (match List.find? (fun pp => pp.charge_entry_id == x.charge_entry_id)
            (p :: ps) with
          | some pp => { pp with status := "Merged" }
          | none => x)
      rw [List.find?_cons, show (p.charge_entry_id == x.charge_entry_id) = true by
        simp [hxp]]
    · have hne : (p.charge_entry_id == x.charge_entry_id) = false := by
        simp only [beq_eq_false_iff_ne, ne_eq]
        intro he
        exact hpx (by simp [he])
      show (match ps.find? (fun pp => pp.charge_entry_id ==
          (if x.charge_entry_id == p.charge_entry_id then
            ({ p with status := "Merged" } : AdmissionCharge) else x).charge_entry_id) with
        | some pp => { pp with status := "Merged" }
        | none => (if x.charge_entry_id == p.charge_entry_id then
            ({ p with status := "Merged" } : AdmissionCharge) else x)) = _
      rw [if_neg hpx]
      show (match ps.find? (fun pp => pp.charge_entry_id == x.charge_entry_id) with
        | some pp => { pp with status := "Merged" }
        | none => x) = _
      rw [List.find?_cons, hne]

/-- A legacy draft bill of the admission. -/
def is_draft_of (admission_id : String) (b : Billing) : Bool :=
  matches_admission b.admission_id admission_id && (b.bill_status == "Draft")

/-- A pending charge entry of the admission. -/
def is_pending_of (admission_id : String) (e : AdmissionCharge) : Bool :=
  matches_admission e.admission_id admission_id && (e.status == "Pending")

lemma existing_bills_def (s : Store) (adm : String) :
    (collect_admission_billing_state s adm).existing_bills =
      sortByKeyDesc (fun b => b.billing_date)
        (s.bills.filter (fun b =>
          matches_admission b.admission_id adm && b.bill_status != "Merged")) := rfl

lemma mem_draft_bills {s : Store} {adm : String} {b : Billing} :
    b ∈ draft_bills (collect_admission_billing_state s adm) ↔
      b ∈ s.bills ∧ is_draft_of adm b = true := by
  rw [draft_bills, List.mem_filter, mem_existing_bills, is_draft_of]
  constructor
  · rintro ⟨⟨hb, hm, _⟩, hd⟩
    exact ⟨hb, by simp [hm, hd]⟩
  · rintro ⟨hb, hd⟩
    simp only [Bool.and_eq_true, beq_iff_eq] at hd
    refine ⟨⟨hb, hd.1, ?_⟩, by simp [hd.2]⟩
    rw [hd.2]
    decide

lemma mem_pending_entries {s : Store} {adm : String} {e : AdmissionCharge} :
    e ∈ (collect_admission_billing_state s adm).pending_charge_entries ↔
      e ∈ s.charge_entries ∧ is_pending_of adm e = true := by
  rw [pending_charge_entries_eq, List.mem_filter, is_pending_of]
  constructor
  · rintro ⟨he, hp⟩
    simp only [Bool.and_eq_true] at hp ⊢
    exact ⟨he, hp.2, hp.1⟩
  · rintro ⟨he, hp⟩
    simp only [Bool.and_eq_true] at hp ⊢
    exact ⟨he, hp.2, hp.1⟩

lemma draft_ids_nodup {s : Store} {adm : String}
    (h : (s.bills.map (fun x => x.bill_id)).Nodup) :
    ((draft_bills (collect_admission_billing_state s adm)).map
      (fun x => x.bill_id)).Nodup := by
  have h1 : ((s.bills.filter (fun b =>
      matches_admission b.admission_id adm && b.bill_status != "Merged")).map
        (fun x => x.bill_id)).Nodup :=
    h.sublist (List.Sublist.map _ (List.filter_sublist _))
  have h2 : ((sortByKeyDesc (fun b => b.billing_date)
      (s.bills.filter (fun b =>
        matches_admission b.admission_id adm && b.bill_status != "Merged"))).map
        (fun x => x.bill_id)).Nodup :=
    (((sortByKeyDesc_perm _ _).map _).nodup_iff).mpr h1
  rw [draft_bills, existing_bills_def]
  exact h2.sublist (List.Sublist.map _ (List.filter_sublist _))

lemma pending_ids_nodup {s : Store} {adm : String}
    (h : (s.charge_entries.map (fun x => x.charge_entry_id)).Nodup) :
    (((collect_admission_billing_state s adm).pending_charge_entries).map
      (fun x => x.charge_entry_id)).Nodup := by
  rw [pending_charge_entries_eq]
  exact h.sublist (List.Sublist.map _ (List.filter_sublist _))

lemma find_draft_eq {s : Store} {adm : String} {x : Billing}
    (hnd : (s.bills.map (fun b => b.bill_id)).Nodup) (hx : x ∈ s.bills) :
    (draft_bills (collect_admission_billing_state s adm)).find?
        (fun d => d.bill_id == x.bill_id)
      = if is_draft_of adm x then some x else none := by
  by_cases hdx : is_draft_of adm x = true
  · rw [if_pos hdx]
    have hmem : x ∈ draft_bills (collect_admission_billing_state s adm) :=
      mem_draft_bills.mpr ⟨hx, hdx⟩
    cases hfind : (draft_bills (collect_admission_billing_state s adm)).find?
        (fun d => d.bill_id == x.bill_id) with
    | none => exact absurd (by simp) (List.find?_eq_none.mp hfind x hmem)
    | some d =>
      have hdmem := (mem_draft_bills.mp (List.mem_of_find?_eq_some hfind)).1
      have hdid : d.bill_id = x.bill_id := by
        simpa using List.find?_some hfind
      rw [List.inj_on_of_nodup_map hnd hdmem hx hdid]
  · rw [if_neg hdx, List.find?_eq_none]
    intro d hd hbeq
    obtain ⟨hdb, hddraft⟩ := mem_draft_bills.mp hd
    have : d = x :=
      List.inj_on_of_nodup_map hnd hdb hx (by simpa using hbeq)
    exact hdx (this ▸ hddraft)

lemma find_pending_eq {s : Store} {adm : String} {x : AdmissionCharge}
    (hnd : (s.charge_entries.map (fun e => e.charge_entry_id)).Nodup)
    (hx : x ∈ s.charge_entries) :
    ((collect_admission_billing_state s adm).pending_charge_entries).find?
        (fun p => p.charge_entry_id == x.charge_entry_id)
      = if is_pending_of adm x then some x else none := by
  by_cases hpx : is_pending_of adm x = true
  · rw [if_pos hpx]
    have hmem : x ∈ (collect_admission_billing_state s adm).pending_charge_entries :=
      mem_pending_entries.mpr ⟨hx, hpx⟩
    cases hfind : ((collect_admission_billing_state s adm).pending_charge_entries).find?
        (fun p => p.charge_entry_id == x.charge_entry_id) with
    | none => exact absurd (by simp) (List.find?_eq_none.mp hfind x hmem)
    | some p =>
      have hpmem := (mem_pending_entries.mp (List.mem_of_find?_eq_some hfind)).1
      have hpid : p.charge_entry_id = x.charge_entry_id := by
        simpa using List.find?_some hfind
      rw [List.inj_on_of_nodup_map hnd hpmem hx hpid]
  · rw [if_neg hpx, List.find?_eq_none]
    intro p hp hbeq
    obtain ⟨hpe, hppend⟩ := mem_pending_entries.mp hp
    have : p = x :=
      List.inj_on_of_nodup_map hnd hpe hx (by simpa using hbeq)
    exact hpx (this ▸ hppend)

lemma foldl_guard_drop (nbid : ℕ) :
    ∀ (ds : List Billing) (bs : List Billing),
      (∀ d ∈ ds, d.bill_id ≠ nbid) →
      ds.foldl (fun acc b =>
          if b.bill_id ≠ nbid then
            update_bill_row acc { b with bill_status := "Merged" }
          else acc) bs
        = ds.foldl (fun acc b =>
            update_bill_row acc { b with bill_status := "Merged" }) bs := by
  intro ds
  induction ds with
  | nil => intro bs _; rfl
  | cons d ds ih =>
    intro bs h
    rw [List.foldl_cons, List.foldl_cons, if_pos (h d (List.mem_cons_self _ _))]
    exact ih _ (fun d' hd' => h d' (List.mem_cons_of_mem _ hd'))

/-- C5: side effects are exactly as specified.  A successful save appends
exactly one new ChargeEntry with status Pending and changes nothing else;
a successful generate appends exactly one new Bill with status Final,
flips every Pending ChargeEntry and every legacy Draft bill of the
admission to Merged, and neither deletes nor modifies any other record
(stated under duplicate-free sheet ids, which `max+1` id assignment
maintains). -/
theorem C5_side_effects :
    (∀ (env : Env) (s : Store) (form : BillingForm) (s' : Store)
        (e : AdmissionCharge),
      index_billing_post env s form = (s', .saved e) →
      e.status = "Pending" ∧
      s'.charge_entries = s.charge_entries ++ [e] ∧
      s'.bills = s.bills) ∧
    (∀ (env : Env) (s : Store) (form : BillingForm) (s' : Store) (nb : Billing),
      form.action = "generate" →
      index_billing_post env s form = (s', .generated nb) →
      (s.bills.map (fun b => b.bill_id)).Nodup →
      (s.charge_entries.map (fun e => e.charge_entry_id)).Nodup →
      nb.bill_status = "Final" ∧
      s'.bills = s.bills.map (fun b =>
          if is_draft_of form.admission_id b then
            { b with bill_status := "Merged" } else b) ++ [nb] ∧
      s'.charge_entries = s.charge_entries.map (fun e =>
          if is_pending_of form.admission_id e then
            { e with status := "Merged" } else e)) := by
  constructor
  · intro env s form s' e h
    obtain ⟨_, _, _, _, _, he, hs'⟩ := saved_inversion h
    subst he
    subst hs'
    exact ⟨rfl, rfl, rfl⟩
  · intro env s form s' nb hact h hndb hnde
    obtain ⟨_, _, _, _, _, hnb, hres⟩ := generated_inversion h
    have hbeq : (form.action == "generate") = true := by simp [hact]
    have hnbid : nb.bill_id = next_bill_id s.bills := by rw [hnb]; rfl
    have hguard : ∀ d ∈ draft_bills
        (collect_admission_billing_state s form.admission_id),
        d.bill_id ≠ nb.bill_id := by
      intro d hd
      have hdmem := (mem_draft_bills.mp hd).1
      have hle : d.bill_id ≤ (s.bills.map (fun b => b.bill_id)).foldr max 0 :=
        le_foldr_max _ _ (List.mem_map_of_mem _ hdmem)
      rw [hnbid, next_bill_id]
      omega
    have hbills : s'.bills =
        (if form.action == "generate"
          then draft_bills (collect_admission_billing_state s form.admission_id)
          else []).foldl
          (fun bs b =>
            if b.bill_id ≠ (generated_bill env s form).bill_id then
              update_bill_row bs { b with bill_status := "Merged" }
            else bs) (s.bills ++ [generated_bill env s form]) := by
      have := congrArg (fun p => p.1.bills) hres
      simpa only [generate_result] using this
    have hentries : s'.charge_entries =
        ((collect_admission_billing_state s form.admission_id).pending_charge_entries).foldl
          (fun es e => update_admission_charge_row es { e with status := "Merged" })
          s.charge_entries := by
      have := congrArg (fun p => p.1.charge_entries) hres
      simpa only [generate_result] using this
    have hnd0 : ((s.bills ++ [generated_bill env s form]).map
        (fun b => b.bill_id)).Nodup := by
      rw [List.map_append, List.nodup_append]
      refine ⟨hndb, by simp, ?_⟩
      intro a ha
      simp only [List.map_cons, List.map_nil, List.mem_singleton]
      obtain ⟨b, hb, rfl⟩ := List.mem_map.mp ha
      intro heq
      have hle : b.bill_id ≤ (s.bills.map (fun b => b.bill_id)).foldr max 0 :=
        le_foldr_max _ _ (List.mem_map_of_mem _ hb)
      rw [show (generated_bill env s form).bill_id = next_bill_id s.bills
        from rfl, next_bill_id] at heq
      omega
    refine ⟨by rw [hnb]; rfl, ?_, ?_⟩
    · rw [hbills, if_pos hbeq,
        foldl_guard_drop (generated_bill env s form).bill_id _ _
          (by rw [← hnb]; exact fun d hd => hguard d hd),
        foldl_update_bills_eq _ _ hnd0 (draft_ids_nodup hndb),
        List.map_append]
      congr 1
      · apply List.map_congr_left
        intro b hb
        rw [find_draft_eq hndb hb]
        by_cases hd : is_draft_of form.admission_id b = true
        · rw [if_pos hd, if_pos hd]
        · rw [if_neg hd, if_neg hd]
      · rw [List.map_cons, List.map_nil]
        have hfind : (draft_bills
            (collect_admission_billing_state s form.admission_id)).find?
            (fun d => d.bill_id == (generated_bill env s form).bill_id)
            = none := by
          rw [List.find?_eq_none]
          intro d hd hbeq'
          exact (hnb ▸ hguard d hd) (by simpa using hbeq')
        rw [hfind, hnb]
    · rw [hentries,
        foldl_update_entries_eq _ _ hnde (pending_ids_nodup hnde)]
      apply List.map_congr_left
      intro e he
      rw [find_pending_eq hnde he]
      by_cases hp : is_pending_of form.admission_id e = true
      · rw [if_pos hp, if_pos hp]
      · rw [if_neg hp, if_neg hp]

/-- Witness for C5: a concrete save and a concrete generate. -/
theorem C5_witness :
    ((saved_entry wEnv wStoreEmpty wNurseForm).status = "Pending" ∧
     (save_result wEnv wStoreEmpty wNurseForm).1.charge_entries
       = wStoreEmpty.charge_entries ++ [saved_entry wEnv wStoreEmpty wNurseForm] ∧
     (save_result wEnv wStoreEmpty wNurseForm).1.bills = wStoreEmpty.bills) ∧
    ((generated_bill wEnv wStoreDress wGenPendForm).bill_status = "Final" ∧
     (generate_result wEnv wStoreDress wGenPendForm).1.bills
       = wStoreDress.bills.map (fun b =>
           if is_draft_of wGenPendForm.admission_id b then
             { b with bill_status := "Merged" } else b)
         ++ [generated_bill wEnv wStoreDress wGenPendForm] ∧
     (generate_result wEnv wStoreDress wGenPendForm).1.charge_entries
       = wStoreDress.charge_entries.map (fun e =>
           if is_pending_of wGenPendForm.admission_id e then
             { e with status := "Merged" } else e)) :=
  ⟨C5_side_effects.1 wEnv wStoreEmpty wNurseForm
      (save_result wEnv wStoreEmpty wNurseForm).1
      (saved_entry wEnv wStoreEmpty wNurseForm) rfl,
   C5_side_effects.2 wEnv wStoreDress wGenPendForm
      (generate_result wEnv wStoreDress wGenPendForm).1
      (generated_bill wEnv wStoreDress wGenPendForm) rfl rfl
      (by decide) (by decide)⟩

end HospitalBilling
